import Mathlib

/-!
Verification of the fixedtick netcode core.

Shallow embedding of the Rust sources (src/common.rs, src/server.rs,
src/server_util.rs, src/networking/transport.rs, src/networking/systems.rs,
src/client.rs, src/client_util.rs) in Lean 4.  `f32` arithmetic is modelled
over `ℚ` (the claims under study are structural: clamping, control flow,
queue discipline); wall-clock instants and durations are modelled over `ℚ`
as well.  Machine integers that can overflow are noted where they occur.
-/

namespace Fixedtick

/-! ## Constants (src/common.rs, src/server.rs, src/networking/mod.rs) -/

/-- src/common.rs: `PADDLE_SIZE.x` (the paddle is 120 wide). -/

def PADDLE_SIZE_X : ℚ := 120

/-- src/common.rs: `PADDLE_SPEED`. -/

def PADDLE_SPEED : ℚ := 500

/-- src/common.rs: `PADDLE_PADDING`. -/

def PADDLE_PADDING : ℚ := 10

/-- src/common.rs: `BALL_DIAMETER`. -/

def BALL_DIAMETER : ℚ := 30

/-- src/common.rs: `WALL_THICKNESS`. -/

def WALL_THICKNESS : ℚ := 10

/-- src/common.rs: `LEFT_WALL`. -/

def LEFT_WALL : ℚ := -450

/-- src/common.rs: `RIGHT_WALL`. -/

def RIGHT_WALL : ℚ := 450

/-- Modelled from the spec: `TICK_RATE_HZ` (default 60) is referenced by
src/server.rs and src/client.rs but its defining version of common.rs is
missing from src/. -/

def TICK_RATE_HZ : ℚ := 60

/-- Modelled from the spec: `TICK_S = 1/TICK_RATE_HZ`. -/

def TICK_S : ℚ := 1 / TICK_RATE_HZ

/-- Modelled from the spec: `MIN_JITTER_S` (e.g. 6 ms); referenced by
src/server.rs and src/client.rs but missing from src/. -/

def MIN_JITTER_S : ℚ := 6 / 1000

/-- src/server.rs line 25: `BUFFER_DELAY_S = 1.0 * TICK_S + MIN_JITTER_S`. -/

def BUFFER_DELAY_S : ℚ := 1 * TICK_S + MIN_JITTER_S

/-- src/server.rs line 26: `BUFFER_LEN = 1 + ((BUFFER_DELAY_S / TICK_S) as usize)`
(the `as usize` cast truncates toward zero; the quantity is positive). -/

def BUFFER_LEN : ℕ := 1 + (Int.floor (BUFFER_DELAY_S / TICK_S)).toNat

/-- src/server.rs line 27: `PADDLE_LEFT_BOUND`. -/

def PADDLE_LEFT_BOUND : ℚ := LEFT_WALL + WALL_THICKNESS / 2 + PADDLE_SIZE_X / 2 + PADDLE_PADDING

/-- src/server.rs line 28: `PADDLE_RIGHT_BOUND`. -/

def PADDLE_RIGHT_BOUND : ℚ := RIGHT_WALL - WALL_THICKNESS / 2 - PADDLE_SIZE_X / 2 - PADDLE_PADDING

/-- src/networking/mod.rs: `DEFAULT_HEARTBEAT_TICK_RATE_SECS`. -/

def DEFAULT_HEARTBEAT_TICK_RATE_SECS : ℚ := 2

/-- src/networking/mod.rs: `DEFAULT_IDLE_TIMEOUT_SECS`. -/

def DEFAULT_IDLE_TIMEOUT_SECS : ℚ := 5

/-- Rust `f32::clamp(lo, hi)` (for `lo ≤ hi`): `max lo (min hi x)`. -/

def rclamp (x lo hi : ℚ) : ℚ := max lo (min hi x)

/-! ## Input buffer state machine (src/server.rs, `process_input`)

Per connection the server keeps a `NetInput` component: an `input_state`
(`Buffering`/`Playing`) and a FIFO `inputs: VecDeque<ReceivedPlayerInput>`.
`process_input` runs once per fixed tick, per connection, and also moves the
connection's paddle.  The embedding below reproduces the function body of
src/server.rs lines 399-506 faithfully, including the fact that the local
variable `direction` is declared once per connection per tick and therefore
accumulates across all inputs consumed in the same tick. -/

/-- src/common.rs: `PlayerInput` / `PlayerInputData` — the fields used by the
server are `key_mask` (u8; bit 0 = Left, bit 1 = Right), `sequence` and
`simulating_frame`.  `sequence` does not appear in the old src/common.rs
`PlayerInput` but is used throughout src/client.rs; the current definition is
missing from src/ and is modelled from the spec's Input data model. -/

structure PlayerInputData where
  sequence : ℕ
  simulating_frame : ℕ
  key_mask : ℕ
  deriving Repr, DecidableEq

/-- src/server.rs: `ReceivedPlayerInput { data, time_received }`. -/

structure ReceivedPlayerInput where
  data : PlayerInputData
  time_received : ℚ
  deriving Repr, DecidableEq

/-- src/server.rs: `NetInputState`. -/

inductive NetInputState where
  | buffering
  | playing
  deriving Repr, DecidableEq

/-- src/server.rs lines 459-465: the contribution of one input's key mask to
`direction` (`NetKey::Left = 0`, `NetKey::Right = 1`). -/

def dirDelta (key_mask : ℕ) : ℚ :=
  (if key_mask &&& (1 <<< 0) ≠ 0 then -1 else 0) +
  (if key_mask &&& (1 <<< 1) ≠ 0 then 1 else 0)

/-- Result of one `process_input` tick for one connection. -/

structure InputTickResult where
  state : NetInputState
  queue : List ReceivedPlayerInput
  paddleX : ℚ
  consumed : List ReceivedPlayerInput
  deriving Repr, DecidableEq

/-- src/server.rs lines 453-485: the consume loop.  `dir` is the running
`direction` accumulator (declared once per tick at line 407), `x` the paddle's
x translation.  Each iteration pops the front input, folds its key mask into
`direction`, moves the paddle by the **accumulated** direction, and stops as
soon as fewer than `BUFFER_LEN` inputs remain.  The `[]` case is unreachable:
the loop is entered only with a non-empty queue (`assert!(!inputs.is_empty())`). -/

def consumeLoop (dir x : ℚ) : List ReceivedPlayerInput → ℚ × List ReceivedPlayerInput × List ReceivedPlayerInput
  | [] => (x, [], [])
  | i :: rest =>
    let dir' := dir + dirDelta i.data.key_mask
    let x' := rclamp (x + dir' * PADDLE_SPEED * TICK_S) PADDLE_LEFT_BOUND PADDLE_RIGHT_BOUND
    if rest.length < BUFFER_LEN then
      (x', rest, [i])
    else
      let r := consumeLoop dir' x' rest
      (r.1, r.2.1, i :: r.2.2)

/-- src/server.rs lines 405-485: one `process_input` tick for one connection.
`now` is `real_time.elapsed_seconds()`; the paddle moves with
`fixed_time.delta_seconds() = TICK_S` (the system runs in `FixedUpdate`). -/

def processConnInput (now : ℚ) (st : NetInputState) (q : List ReceivedPlayerInput) (x : ℚ) :
    InputTickResult :=
  match st with
  | .buffering =>
    match q with
    | [] => ⟨.buffering, [], x, []⟩
    | front :: _ =>
      if now - front.time_received < BUFFER_DELAY_S then
        ⟨.buffering, q, x, []⟩
      else
        let r := consumeLoop 0 x q
        ⟨.playing, r.2.1, r.1, r.2.2⟩
  | .playing =>
    match q with
    | [] => ⟨.buffering, [], x, []⟩
    | _ :: _ =>
      let r := consumeLoop 0 x q
      ⟨.playing, r.2.1, r.1, r.2.2⟩

/-- The number of inputs the consume loop pops from a queue of length `n`:
at least one, and enough that fewer than `BUFFER_LEN` remain. -/

def consumeCount (n : ℕ) : ℕ := max 1 (n + 1 - BUFFER_LEN)

/-- A received input whose key mask holds only the Left bit, with sequence `s`,
received at time 0; used as concrete test data. -/

def leftIn (s : ℕ) : ReceivedPlayerInput := ⟨⟨s, 0, 1⟩, 0⟩

/-! ## Claim C7: paddle movement per consumed input

Claim C7 states the paddle moves, for **every consumed input**, by
`x' = clamp(x + dir * PADDLE_SPEED * dt, ...)` with `dir ∈ {-1,0,1}` derived
from that input's key mask alone.  The next definition is that rule, written
from the claim's words, to be compared with the code's behavior. -/

/-- The movement rule as claim C7 words it: fold over the consumed inputs,
each step using only that input's own key mask. -/

def claimPerInputMove (x : ℚ) (inputs : List ReceivedPlayerInput) : ℚ :=
  inputs.foldl
    (fun xx i =>
      rclamp (xx + dirDelta i.data.key_mask * PADDLE_SPEED * TICK_S)
        PADDLE_LEFT_BOUND PADDLE_RIGHT_BOUND) x

/-- One step of the code's actual per-input update (src/server.rs lines
457-474): the running `direction` accumulator is threaded through the tick. -/

def accumStep (p : ℚ × ℚ) (i : ReceivedPlayerInput) : ℚ × ℚ :=
  let d := p.1 + dirDelta i.data.key_mask
  (d, rclamp (p.2 + d * PADDLE_SPEED * TICK_S) PADDLE_LEFT_BOUND PADDLE_RIGHT_BOUND)

/-- The code's movement over a tick: fold `accumStep` with `direction`
starting at 0 once per tick (src/server.rs line 407). -/

def accumMove (x : ℚ) (inputs : List ReceivedPlayerInput) : ℚ :=
  (inputs.foldl accumStep (0, x)).2

/-! ## Transport (src/networking/transport.rs)

`Transport` owns `messages: VecDeque<Message>` and a parallel
`sim_send_times: VecDeque<Instant>`, plus the send-side latency settings.
Randomness in `SimLatencySetting::roll` (src/networking/mod.rs lines 105-128)
is modelled by passing the two random draws — the loss roll and the sampled
delay instant — as oracle arguments. -/

/-- src/networking/message.rs: `Message { destination, payload }`; the socket
address is abstracted to a number. -/

structure Message where
  destination : ℕ
  payload : List ℕ
  deriving Repr, DecidableEq

/-- src/networking/mod.rs: `SimLatencyRollResult`. -/

inductive SimLatencyRollResult where
  | noOp
  | drop
  | delay (t : ℚ)
  deriving Repr, DecidableEq

/-- src/networking/mod.rs lines 105-128: `SimLatencySetting::roll`.  When the
settings are not set the result is `NoOp`; when set, the loss roll may `Drop`
the packet and otherwise some `Delay(t)` is returned (the sampled t is an
oracle argument; with zero latency settings the delay degenerates to `now`). -/

def rollSimLatency (isSet lossRoll : Bool) (delayT : ℚ) : SimLatencyRollResult :=
  if !isSet then .noOp
  else if lossRoll then .drop
  else .delay delayT

/-- src/networking/transport.rs: the `Transport` resource.  `simSendSet`
models `sim_send_settings.is_set()`. -/

structure Transport where
  messages : List Message
  sim_send_times : List ℚ
  simSendSet : Bool
  deriving Repr, DecidableEq

/-- src/networking/transport.rs lines 23-29: `Transport::new`. -/

def Transport.new (isSet : Bool) : Transport := ⟨[], [], isSet⟩

/-- src/networking/transport.rs lines 33-48: `Transport::send`.  On `Drop` the
function returns early; on `Delay(t)` the instant is placed at its
binary-search position, keeping `sim_send_times` sorted soonest-to-latest; in
every non-drop case the message itself is pushed at the back. -/

def Transport.send (tp : Transport) (lossRoll : Bool) (delayT : ℚ)
    (destination : ℕ) (payload : List ℕ) : Transport :=
  match rollSimLatency tp.simSendSet lossRoll delayT with
  | .noOp => { tp with messages := tp.messages ++ [⟨destination, payload⟩] }
  | .drop => tp
  | .delay t =>
    { tp with
      messages := tp.messages ++ [⟨destination, payload⟩],
      sim_send_times := List.orderedInsert (· ≤ ·) t tp.sim_send_times }

/-- src/networking/transport.rs lines 82-94: the drain loop in the
latency-simulation case.  Walks the two parallel queues; an entry is drained
when its release instant has passed (`now >= send_times[i]`) and the filter
accepts it, removing message and instant together, else kept.  The
`(_ :: _, [])` case is unreachable when the queues are parallel (the Rust
code would panic on the index). -/

def drainSimLoop (now : ℚ) (filter : Message → Bool) :
    List Message → List ℚ → List Message × List Message × List ℚ
  | [], ts => ([], [], ts)
  | m :: ms, [] => ([], m :: ms, [])
  | m :: ms, t :: ts =>
    if t ≤ now ∧ filter m = true then
      let r := drainSimLoop now filter ms ts
      (m :: r.1, r.2.1, r.2.2)
    else
      let r := drainSimLoop now filter ms ts
      (r.1, m :: r.2.1, t :: r.2.2)

/-- src/networking/transport.rs lines 65-96: `drain_messages_to_send`.
Returns the drained messages and the updated transport.  Without send-side
simulation every message passing the filter is drained in order and
`sim_send_times` is untouched. -/

def Transport.drain_messages_to_send (tp : Transport) (now : ℚ)
    (filter : Message → Bool) : List Message × Transport :=
  if tp.simSendSet then
    let r := drainSimLoop now filter tp.messages tp.sim_send_times
    (r.1, { tp with messages := r.2.1, sim_send_times := r.2.2 })
  else
    (tp.messages.filter filter,
     { tp with messages := tp.messages.filter (fun m => !filter m) })

/-- A call against the `Transport` interface: `send` (with its two random
draws as oracle data) or `drain_messages_to_send`. -/

inductive TransportOp where
  | send (lossRoll : Bool) (delayT : ℚ) (destination : ℕ) (payload : List ℕ)
  | drain (now : ℚ) (filter : Message → Bool)

def applyTransportOp (tp : Transport) : TransportOp → Transport
  | .send l t d p => tp.send l t d p
  | .drain now f => (tp.drain_messages_to_send now f).2

/-- The property asserted at the top of `drain_messages_to_send`
(src/networking/transport.rs lines 69-74): with the send simulation set the
two queues are parallel, without it the release-time queue is empty. -/

def TransportInv (tp : Transport) : Prop :=
  (tp.simSendSet = true → tp.messages.length = tp.sim_send_times.length) ∧
  (tp.simSendSet = false → tp.sim_send_times = [])

/-! ## Ball vs AABB collision (src/common.rs, `ball_collision` and the
reflection part of `check_for_collisions`)

`bevy_math` bounding volumes are embedded per their library semantics:
`Aabb2d::new(center, half_size)` stores min/max corners, `closest_point`
clamps the query point into the box, and circle/AABB intersection compares
the squared distance from the circle's center to that closest point with the
squared radius. -/

structure Vec2 where
  x : ℚ
  y : ℚ
  deriving Repr, DecidableEq

/-- bevy_math: `BoundingCircle` (center and radius). -/

structure BoundingCircle where
  center : Vec2
  radius : ℚ
  deriving Repr, DecidableEq

/-- bevy_math: `Aabb2d` (min and max corners). -/

structure Aabb2d where
  lo : Vec2
  hi : Vec2
  deriving Repr, DecidableEq

/-- bevy_math: `Aabb2d::new(center, half_size)`. -/

def Aabb2d.new (center halfSize : Vec2) : Aabb2d :=
  ⟨⟨center.x - halfSize.x, center.y - halfSize.y⟩,
   ⟨center.x + halfSize.x, center.y + halfSize.y⟩⟩

/-- bevy_math: `Aabb2d::closest_point` clamps the point into the box. -/

def Aabb2d.closest_point (b : Aabb2d) (p : Vec2) : Vec2 :=
  ⟨rclamp p.x b.lo.x b.hi.x, rclamp p.y b.lo.y b.hi.y⟩

def distSq (a b : Vec2) : ℚ := (a.x - b.x) ^ 2 + (a.y - b.y) ^ 2

def sqNorm (v : Vec2) : ℚ := v.x ^ 2 + v.y ^ 2

/-- bevy_math: `BoundingCircle::intersects(&Aabb2d)`. -/

def BoundingCircle.intersectsAabb (c : BoundingCircle) (b : Aabb2d) : Prop :=
  distSq (b.closest_point c.center) c.center ≤ c.radius ^ 2

instance (c : BoundingCircle) (b : Aabb2d) : Decidable (c.intersectsAabb b) := by
  unfold BoundingCircle.intersectsAabb
  infer_instance

/-- src/common.rs: `Collision` (which side of the box the ball hit). -/

inductive Collision where
  | left
  | right
  | top
  | bottom
  deriving Repr, DecidableEq

/-- src/common.rs lines 229-249: `ball_collision`.  `None` when the circle
does not intersect the box; otherwise the side is chosen from the offset of
the circle's center from its closest point on the box: the x axis wins when
`offset.x.abs() > offset.y.abs()`, and the sign of the winning component picks
the side. -/

def ball_collision (ball : BoundingCircle) (bounding_box : Aabb2d) : Option Collision :=
  if ¬ ball.intersectsAabb bounding_box then none
  else
    let closest := bounding_box.closest_point ball.center
    let offsetX := ball.center.x - closest.x
    let offsetY := ball.center.y - closest.y
    some (if |offsetX| > |offsetY| then
            (if offsetX < 0 then .left else .right)
          else if offsetY > 0 then .top
          else .bottom)

/-- src/common.rs lines 299-309: the `reflect_x`/`reflect_y` flags chosen
from the collision side and the current velocity. -/

def reflectFlags (collision : Collision) (v : Vec2) : Bool × Bool :=
  match collision with
  | .left => (decide (v.x > 0), false)
  | .right => (decide (v.x < 0), false)
  | .top => (false, decide (v.y < 0))
  | .bottom => (false, decide (v.y > 0))

/-- src/common.rs lines 311-319: apply the reflection flags to the ball's
velocity. -/

def reflectBallVelocity (collision : Collision) (v : Vec2) : Vec2 :=
  ⟨if (reflectFlags collision v).1 then -v.x else v.x,
   if (reflectFlags collision v).2 then -v.y else v.y⟩

/-- The claim's notion of the velocity pointing into the obstacle, side by
side: a `Left` collision means the ball is on the box's left, so a positive x
velocity points into it, and symmetrically for the other sides. -/

def pointsIntoObstacle (collision : Collision) (v : Vec2) : Prop :=
  match collision with
  | .left => v.x > 0
  | .right => v.x < 0
  | .top => v.y < 0
  | .bottom => v.y > 0

instance (c : Collision) (v : Vec2) : Decidable (pointsIntoObstacle c v) := by
  unfold pointsIntoObstacle
  cases c <;> infer_instance

/-! ## Server datagram receive, idle timeout, disconnect
(src/networking/systems.rs, src/server_util.rs)

`server_recv_packet_system` drains the socket; for each datagram it refreshes
(or creates) the sender's entry in `NetworkResource.connections`, emits
`Connected` for a first contact, discards zero-length payloads without
emitting a `Message`, and otherwise emits `Message`.  The receive-side
latency simulation settings default to unset, in which case
`send_with_sim_latency` forwards the event directly; that configuration is
the one embedded here. -/

/-- The `NetworkEvent`s produced by the server receive path
(src/networking/events.rs; the error variants are not relevant here). -/

inductive ServerNetEvent where
  | connected (addr : ℕ)
  | message (addr : ℕ) (payload : List ℕ) (recvTime : ℚ)
  deriving Repr, DecidableEq

/-- Embedding of `HashMap::insert` on the connections map, as an association list with
first-match lookup: refresh the existing entry for the key or append a new
one. -/

def updateConn : List (ℕ × ℚ) → ℕ → ℚ → List (ℕ × ℚ)
  | [], a, t => [(a, t)]
  | (b, u) :: rest, a, t =>
    if b = a then (a, t) :: rest else (b, u) :: updateConn rest a t

def lookupConn (l : List (ℕ × ℚ)) (a : ℕ) : Option ℚ :=
  (l.find? (fun p => decide (p.1 = a))).map Prod.snd

/-- src/networking/systems.rs lines 110-141: processing of one received
datagram by `server_recv_packet_system`.  The sender's liveness entry is
always refreshed first (`net.connections.insert(address, time.elapsed())`); a
previously unknown address yields a `Connected` event; a zero-length payload
is then discarded without a `Message` event; anything else yields a `Message`
event. -/

def server_recv_datagram (connections : List (ℕ × ℚ)) (addr : ℕ) (elapsed : ℚ)
    (payload : List ℕ) (recvTime : ℚ) : List (ℕ × ℚ) × List ServerNetEvent :=
  let isNew := (connections.find? (fun p => decide (p.1 = addr))).isNone
  let conns := updateConn connections addr elapsed
  let evs := if isNew then [ServerNetEvent.connected addr] else []
  if payload.length = 0 then (conns, evs)
  else (conns, evs ++ [ServerNetEvent.message addr payload recvTime])

/-- src/networking/systems.rs lines 190-199: when the heartbeat timer fires
the client sends `Default::default()` — a zero-length payload — to the server
address through the transport. -/

def auto_heartbeat_system (tp : Transport) (lossRoll : Bool) (delayT : ℚ)
    (remoteAddr : ℕ) : Transport :=
  tp.send lossRoll delayT remoteAddr []

/-- src/networking/systems.rs lines 175-188: `idle_timeout_system`.  Retains
connections with `elapsed - last_update ≤ idle_timeout` and emits a
`Disconnected` for each dropped address (returned here as the list of
addresses, in registry order). -/

def idle_timeout_system (elapsed idleTimeout : ℚ) (connections : List (ℕ × ℚ)) :
    List (ℕ × ℚ) × List ℕ :=
  (connections.filter (fun p => !(decide (elapsed - p.2 > idleTimeout))),
   (connections.filter (fun p => decide (elapsed - p.2 > idleTimeout))).map Prod.fst)

/-- src/server_types.rs: `NetConnection` (the refactored form used by
`write_header` and `handle_client_disconnected`). -/

structure NetConnection where
  addr : ℕ
  paddle_entity : ℕ
  ball_entity : ℕ
  last_applied_input : ℕ
  player_index : ℕ
  deriving Repr, DecidableEq

/-- The server-side entity state touched by `handle_client_disconnected`:
the set of live entity ids, the `NetConnection` component table, and the
`NetConnections.addr_to_entity` map. -/

structure ServerEcs where
  alive : List ℕ
  connComponents : List (ℕ × NetConnection)
  addr_to_entity : List (ℕ × ℕ)
  deriving Repr, DecidableEq

/-- src/server_util.rs lines 9-24: `handle_client_disconnected`.  If the
address is registered, despawn the connection's paddle entity, ball entity
and the connection entity itself, and remove the address from the map;
otherwise do nothing.  (The inner `none` case is unreachable: the source
unwraps the component lookup.) -/

def handle_client_disconnected (handle : ℕ) (w : ServerEcs) : ServerEcs :=
  match w.addr_to_entity.find? (fun p => decide (p.1 = handle)) with
  | none => w
  | some (_, id) =>
    match w.connComponents.find? (fun p => decide (p.1 = id)) with
    | none => w
    | some (_, conn) =>
      { alive := w.alive.filter
          (fun e => !(decide (e = conn.paddle_entity) ||
                      decide (e = conn.ball_entity) || decide (e = id))),
        connComponents := w.connComponents.filter (fun p => !(decide (p.1 = id))),
        addr_to_entity := w.addr_to_entity.filter (fun p => !(decide (p.1 = handle))) }

/-! ## Server tick and score (src/server.rs FixedUpdate chain, src/common.rs
`check_for_collisions`, src/client_util.rs `sync_net_ids_if_needed_and_update_score`)

The per-tick chain that can touch the score is `process_input` (paddles
only), `apply_velocity` (balls only) and `check_for_collisions` (the only
mutation of `Score`).  Collisions are evaluated against the frozen per-tick
collider set: brick despawns go through deferred `Commands`, so a brick hit
by one ball is still a collider for the next ball in the same tick. -/

/-- src/common.rs: `PADDLE_SIZE.y`. -/

def PADDLE_SIZE_Y : ℚ := 20

/-- src/common.rs: `BOTTOM_WALL`. -/

def BOTTOM_WALL : ℚ := -300

/-- src/common.rs: `GAP_BETWEEN_PADDLE_AND_FLOOR`. -/

def GAP_BETWEEN_PADDLE_AND_FLOOR : ℚ := 60

/-- src/common.rs: `PADDLE_Y`. -/

def PADDLE_Y : ℚ := BOTTOM_WALL + GAP_BETWEEN_PADDLE_AND_FLOOR

/-- A server-side ball: transform translation (x, y) and `Velocity`. -/

structure SBall where
  pos : Vec2
  vel : Vec2
  deriving Repr, DecidableEq

/-- A server-side collider entity: transform translation and scale (the AABB
is `Aabb2d::new(translation, scale / 2)`), whether it is a brick, and its
entity id. -/

structure SCollider where
  center : Vec2
  scale : Vec2
  isBrick : Bool
  id : ℕ
  deriving Repr, DecidableEq

def colliderAabb (c : SCollider) : Aabb2d :=
  Aabb2d.new c.center ⟨c.scale.x / 2, c.scale.y / 2⟩

/-- src/common.rs lines 278-322, inner loop: one ball against the frozen
collider list.  On each collision: emit event (not modelled), on a brick
increment the score and record the despawn, then reflect the velocity.  The
ball's translation does not change during the system. -/

def ballVsColliders (pos : Vec2) (v : Vec2) (colliders : List SCollider)
    (score : ℕ) (despawned : List ℕ) : Vec2 × ℕ × List ℕ :=
  colliders.foldl
    (fun (acc : Vec2 × ℕ × List ℕ) c =>
      match ball_collision ⟨pos, BALL_DIAMETER / 2⟩ (colliderAabb c) with
      | none => acc
      | some side =>
        let score' := if c.isBrick then acc.2.1 + 1 else acc.2.1
        let desp' := if c.isBrick then acc.2.2 ++ [c.id] else acc.2.2
        (reflectBallVelocity side acc.1, score', desp'))
    (v, score, despawned)

/-- src/common.rs `check_for_collisions`, outer loop over the balls. -/

def checkLoop : List SBall → List SCollider → ℕ → List ℕ → List SBall × ℕ × List ℕ
  | [], _, s, d => ([], s, d)
  | b :: rest, cols, s, d =>
    let r := ballVsColliders b.pos b.vel cols s d
    let r2 := checkLoop rest cols r.2.1 r.2.2
    ({ b with vel := r.1 } :: r2.1, r2.2)

/-- A server connection's mutable per-tick state. -/

structure SConn where
  input_state : NetInputState
  inputs : List ReceivedPlayerInput
  paddleX : ℚ
  deriving Repr, DecidableEq

/-- The server world state touched by the fixed-tick chain. -/

structure ServerWorld where
  conns : List SConn
  balls : List SBall
  bricks : List SCollider
  walls : List SCollider
  score : ℕ
  deriving Repr, DecidableEq

/-- A paddle's collider: translation (x, PADDLE_Y), scale PADDLE_SIZE. -/

def paddleCollider (x : ℚ) : SCollider :=
  ⟨⟨x, PADDLE_Y⟩, ⟨PADDLE_SIZE_X, PADDLE_SIZE_Y⟩, false, 0⟩

/-- One server fixed tick (src/server.rs lines 125-140), restricted to the
state-mutating simulation systems in their scheduled order: `process_input`,
`apply_velocity`, `check_for_collisions` with deferred brick despawns applied
at the end.  `broadcast_world_state` and the transport systems do not touch
this state. -/

def serverTick (now : ℚ) (w : ServerWorld) : ServerWorld :=
  let conns := w.conns.map (fun c =>
    let r := processConnInput now c.input_state c.inputs c.paddleX
    SConn.mk r.state r.queue r.paddleX)
  let balls := w.balls.map (fun b =>
    SBall.mk ⟨b.pos.x + b.vel.x * TICK_S, b.pos.y + b.vel.y * TICK_S⟩ b.vel)
  let colliders := conns.map (fun c => paddleCollider c.paddleX) ++ w.bricks ++ w.walls
  let r := checkLoop balls colliders w.score []
  { conns := conns,
    balls := r.1,
    bricks := w.bricks.filter (fun b => !(r.2.2.contains b.id)),
    walls := w.walls,
    score := r.2.1 }

/-! Client-side score sync (src/client_util.rs lines 84-112): walking the
snapshot's entities, an entity whose `net_id` is not yet in the client's
`net_id → entity` map is spawned and inserted — except the `Score` entity,
which instead overwrites the displayed score and is never inserted. -/

/-- Client-side view of a snapshot entity (positions decoded to ℚ). -/

inductive CNetEntityType where
  | paddle (pos : Vec2) (playerIndex : ℕ)
  | brick (pos : Vec2)
  | ball (pos : Vec2) (velocity : Vec2) (playerIndex : ℕ)
  | score (value : ℕ)
  deriving Repr, DecidableEq

structure CNetEntity where
  entity_type : CNetEntityType
  net_id : ℕ
  deriving Repr, DecidableEq

def scoreValue? : CNetEntityType → Option ℕ
  | .score v => some v
  | _ => none

/-- src/client_util.rs lines 84-112 (the spawn loop), restricted to its
effect on the known-net-id set and the score: an unknown non-score entity is
spawned and its net id inserted; an unknown `Score` entity sets the score and
inserts nothing. -/

def syncScoreFold (known : List ℕ) (entities : List CNetEntity) (score : ℕ) :
    List ℕ × ℕ :=
  entities.foldl
    (fun (st : List ℕ × ℕ) e =>
      if st.1.contains e.net_id then st
      else
        match e.entity_type with
        | .score v => (st.1, v)
        | _ => (st.1 ++ [e.net_id], st.2))
    (known, score)

def syncScore (known : List ℕ) (entities : List CNetEntity) (score : ℕ) : ℕ :=
  (syncScoreFold known entities score).2

/-- The concrete world for the C9 counterexample: two stationary balls both
overlapping the single brick (entity id 42), no paddles, no walls. -/

def c9World : ServerWorld :=
  ⟨[],
   [⟨⟨0, 20⟩, ⟨0, 0⟩⟩, ⟨⟨0, -20⟩, ⟨0, 0⟩⟩],
   [⟨⟨0, 0⟩, ⟨100, 30⟩, true, 42⟩],
   [],
   0⟩

/-! ## Client prediction and reconciliation (src/client.rs
`reconcile_and_update_predictions`, src/client_types.rs, src/client_util.rs)

The client keeps a FIFO of unacked `PlayerInputData`.  Each tick, after
receiving snapshots, it takes the most recent snapshot's
`last_applied_input` as the ack, retains only the unacked inputs with a
greater sequence, and — when any remain — rolls every predicted entity back
to the snapshot state and replays the retained inputs in order. -/

structure Transform3 where
  x : ℚ
  y : ℚ
  z : ℚ
  deriving Repr, DecidableEq

/-- A locally predicted paddle (`PaddleQuery`): its entity id, `NetId` and
transform. -/

structure PredPaddle where
  entity : ℕ
  net_id : ℕ
  transform : Transform3
  deriving Repr, DecidableEq

/-- A locally predicted ball (`BallQuery`): `NetId`, transform and velocity. -/

structure PredBall where
  net_id : ℕ
  transform : Transform3
  velocity : Vec2
  deriving Repr, DecidableEq

/-- src/client_types.rs: `ClientWorldState` — a received snapshot with the
header fields that accompanied it. -/

structure ClientWorldState where
  entities : List CNetEntity
  last_applied_input : ℕ
  local_client_index : ℕ
  deriving Repr, DecidableEq

/-- src/client_types.rs `ClientWorldState::get_by_net_id`: the
`net_id → index` map is built by inserting every entity in order, so a later
duplicate overwrites an earlier one — the lookup returns the last match. -/

def getByNetId (ws : ClientWorldState) (id : ℕ) : Option CNetEntity :=
  (ws.entities.filter (fun e => decide (e.net_id = id))).getLast?

/-- src/client_util.rs `PaddleQueryItem::rollback_to`: overwrite the
transform from the snapshot paddle with z = 0; a missing `NetId` leaves the
entity untouched.  (A non-paddle entity under this `NetId` panics in the
source; it is modelled as no change and is unreachable under the server's
id discipline.) -/

def rollbackPaddle (ws : ClientWorldState) (p : PredPaddle) : PredPaddle :=
  match getByNetId ws p.net_id with
  | some e =>
    match e.entity_type with
    | .paddle d _ => { p with transform := ⟨d.x, d.y, 0⟩ }
    | _ => p
  | none => p

/-- src/client_util.rs `BallQueryItem::rollback_to`: overwrite transform
(z = 1) and velocity from the snapshot ball. -/

def rollbackBall (ws : ClientWorldState) (b : PredBall) : PredBall :=
  match getByNetId ws b.net_id with
  | some e =>
    match e.entity_type with
    | .ball pos vel _ => { b with transform := ⟨pos.x, pos.y, 1⟩, velocity := vel }
    | _ => b
  | none => b

/-- Modelled from the spec: `move_paddle` is called from
`PaddleQueryItem::simulate_forward` (src/client_util.rs line 216) but its
definition — the current version of common.rs — is missing from src/.  Per
§4.4: `x' = clamp(x + dir * PADDLE_SPEED * dt, LEFT_BOUND, RIGHT_BOUND)`
where `dir ∈ {-1,0,1}` comes from the input's key mask. -/

def move_paddle (dt : ℚ) (t : Transform3) (input : PlayerInputData) : Transform3 :=
  { t with
    x := rclamp (t.x + dirDelta input.key_mask * PADDLE_SPEED * dt)
      PADDLE_LEFT_BOUND PADDLE_RIGHT_BOUND }

/-- src/client_util.rs lines 6-9: `apply_velocity` on a transform. -/

def apply_velocity (dt : ℚ) (t : Transform3) (v : Vec2) : Transform3 :=
  ⟨t.x + v.x * dt, t.y + v.y * dt, t.z⟩

/-- A non-predicted collider visible to the replay loop
(`RemainingCollidersQuery`): entity id, transform translation, scale, and
whether it is a brick. -/

structure RemainingCollider where
  id : ℕ
  center : Vec2
  scale : Vec2
  isBrick : Bool
  deriving Repr, DecidableEq

/-- Modelled from the spec: `check_single_ball_collision` is called from the
replay loop (src/client.rs line 434) but missing from src/.  Per §4.4 and
common.rs's `check_for_collisions`, with `entities_to_ignore` skipping bricks
already deleted during this replay: for each collider not ignored, on
collision reflect the velocity (only when moving into the obstacle) and, for
a brick, record the deletion and increment the score. -/

def check_single_ball_collision (score : ℕ) (colliders : List RemainingCollider)
    (pos : Vec2) (v : Vec2) (ignore : List ℕ) : ℕ × Vec2 × List ℕ :=
  colliders.foldl
    (fun (acc : ℕ × Vec2 × List ℕ) c =>
      if acc.2.2.contains c.id then acc
      else
        match ball_collision ⟨pos, BALL_DIAMETER / 2⟩
            (Aabb2d.new c.center ⟨c.scale.x / 2, c.scale.y / 2⟩) with
        | none => acc
        | some side =>
          ((if c.isBrick then acc.1 + 1 else acc.1),
           reflectBallVelocity side acc.2.1,
           (if c.isBrick then acc.2.2 ++ [c.id] else acc.2.2)))
    (score, v, ignore)

/-- The state threaded through the replay loop. -/

structure ReplayState where
  paddles : List PredPaddle
  balls : List PredBall
  score : ℕ
  ignore : List ℕ
  deriving Repr, DecidableEq

/-- src/client.rs line 428: a predicted paddle joins the collider set with
its transform and the paddle scale and no brick marker. -/

def paddleAsCollider (p : PredPaddle) : RemainingCollider :=
  ⟨p.entity, ⟨p.transform.x, p.transform.y⟩, ⟨PADDLE_SIZE_X, PADDLE_SIZE_Y⟩, false⟩

/-- src/client.rs lines 420-435: replay of one unacked input — advance every
predicted paddle via `move_paddle`, every predicted ball via velocity
integration, then run collision for each ball against the predicted paddles
plus the remaining (non-predicted) colliders. -/

def replayStep (remaining : List RemainingCollider) (st : ReplayState)
    (input : PlayerInputData) : ReplayState :=
  let paddles := st.paddles.map
    (fun p => { p with transform := move_paddle TICK_S p.transform input })
  let balls := st.balls.map
    (fun b => { b with transform := apply_velocity TICK_S b.transform b.velocity })
  let colliders := paddles.map paddleAsCollider ++ remaining
  let r := balls.foldl
    (fun (acc : List PredBall × ℕ × List ℕ) b =>
      let rr := check_single_ball_collision acc.2.1 colliders
        ⟨b.transform.x, b.transform.y⟩ b.velocity acc.2.2
      (acc.1 ++ [{ b with velocity := rr.2.1 }], rr.1, rr.2.2))
    ([], st.score, st.ignore)
  ⟨paddles, r.1, r.2.1, r.2.2⟩

/-- src/client.rs lines 372-437: `reconcile_and_update_predictions`.  With no
snapshot received yet, nothing happens.  Otherwise the unacked FIFO is
retained to the inputs with `sequence > last_applied_input` of the most
recent snapshot; if none remain the pass returns at once, and otherwise every
predicted entity is rolled back to that snapshot and the retained inputs are
replayed in order (the mispredict comparison is log-only and not modelled). -/

def reconcile_and_update_predictions (states : List ClientWorldState)
    (unacked : List PlayerInputData) (paddles : List PredPaddle)
    (balls : List PredBall) (remaining : List RemainingCollider) (score : ℕ) :
    List PlayerInputData × List PredPaddle × List PredBall × ℕ :=
  match states.getLast? with
  | none => (unacked, paddles, balls, score)
  | some most_recent =>
    let kept := unacked.filter
      (fun i => decide (most_recent.last_applied_input < i.sequence))
    if kept.isEmpty then (kept, paddles, balls, score)
    else
      let paddles1 := paddles.map (rollbackPaddle most_recent)
      let balls1 := balls.map (rollbackBall most_recent)
      let final := kept.foldl (replayStep remaining) ⟨paddles1, balls1, score, []⟩
      (kept, final.paddles, final.balls, final.score)

/-! ## Server→client packet bytes (src/server_util.rs `write_header`,
src/server.rs `broadcast_world_state`, src/client.rs header check)

The wire encoding is bincode's standard configuration: little-endian variable
integers (values below 251 occupy one byte, larger ones get a marker byte
followed by little-endian payload), `u8` written raw, enum variant indices
encoded as `u32` varints, `Vec` length-prefixed as a `u64` varint, `f32`
written as its 4 raw little-endian IEEE-754 bytes (a float is represented
here by those 4 bytes). -/

/-- Modelled from the spec: `WORLD_PACKET_HEADER_TAG = 0xBA11BA11` — used by
src/server_util.rs and src/client.rs but defined in the current common.rs
which is missing from src/. -/

def WORLD_PACKET_HEADER_TAG : ℕ := 0xBA11BA11

/-- Modelled from the spec: `HEADER_LEN` — two big-endian u32s plus one u8,
9 bytes (used by src/client.rs but defined in the missing common.rs). -/

def HEADER_LEN : ℕ := 9

/-- Embedding of `byteorder::NetworkEndian::write_u32`: the 4 big-endian bytes of `v`. -/

def writeU32BE (v : ℕ) : List ℕ :=
  [v / 2 ^ 24 % 256, v / 2 ^ 16 % 256, v / 2 ^ 8 % 256, v % 256]

/-- Embedding of `byteorder::NetworkEndian::read_u32` on the first 4 bytes. -/

def readU32BE (l : List ℕ) : ℕ :=
  (l.take 4).foldl (fun acc b => acc * 256 + b) 0

/-- src/server_util.rs lines 26-30: `write_header` — overwrite the first 9
bytes of the buffer with the magic, the connection's `last_applied_input`,
and its player index. -/

def write_header (conn : NetConnection) (buf : List ℕ) : List ℕ :=
  writeU32BE WORLD_PACKET_HEADER_TAG ++ writeU32BE conn.last_applied_input ++
    [conn.player_index] ++ buf.drop HEADER_LEN

/-- The little-endian bytes of `n` over `k` bytes. -/

def leBytes (k n : ℕ) : List ℕ := (List.range k).map (fun i => n / 256 ^ i % 256)

/-- bincode standard-config varint of an unsigned integer. -/

def varint (n : ℕ) : List ℕ :=
  if n < 251 then [n]
  else if n < 2 ^ 16 then 251 :: leBytes 2 n
  else if n < 2 ^ 32 then 252 :: leBytes 4 n
  else 253 :: leBytes 8 n

/-- An `f32` on the wire: its 4 little-endian IEEE-754 bytes. -/

structure F32Wire where
  b0 : ℕ
  b1 : ℕ
  b2 : ℕ
  b3 : ℕ
  deriving Repr, DecidableEq

def F32Wire.bytes (f : F32Wire) : List ℕ := [f.b0, f.b1, f.b2, f.b3]

structure Vec2Wire where
  x : F32Wire
  y : F32Wire
  deriving Repr, DecidableEq

def Vec2Wire.bytes (v : Vec2Wire) : List ℕ := v.x.bytes ++ v.y.bytes

/-- src/common.rs: `NetEntityType` in declaration order Paddle, Brick, Ball,
Score (variant indices 0..3).  The `player_index` on paddles and balls and
the ball's velocity come from the refactored common.rs missing from src/ and
are modelled from their uses in src/server.rs and src/client_util.rs. -/

inductive NetEntityTypeWire where
  | paddle (pos : Vec2Wire) (playerIndex : ℕ)
  | brick (pos : Vec2Wire)
  | ball (pos : Vec2Wire) (velocity : Vec2Wire) (playerIndex : ℕ)
  | score (value : ℕ)
  deriving Repr, DecidableEq

def encodeEntityType : NetEntityTypeWire → List ℕ
  | .paddle pos pi => varint 0 ++ pos.bytes ++ [pi]
  | .brick pos => varint 1 ++ pos.bytes
  | .ball pos vel pi => varint 2 ++ pos.bytes ++ vel.bytes ++ [pi]
  | .score v => varint 3 ++ varint v

/-- src/common.rs: `NetEntity { entity_type, net_id }` (`NetId` is a u16). -/

structure NetEntityWire where
  entity_type : NetEntityTypeWire
  net_id : ℕ
  deriving Repr, DecidableEq

def encodeNetEntity (e : NetEntityWire) : List ℕ :=
  encodeEntityType e.entity_type ++ varint e.net_id

/-- src/common.rs: `WorldStateData { frame, entities }`. -/

structure WorldStateDataWire where
  frame : ℕ
  entities : List NetEntityWire
  deriving Repr, DecidableEq

def encodeWorldState (w : WorldStateDataWire) : List ℕ :=
  varint w.frame ++ varint w.entities.length ++ (w.entities.map encodeNetEntity).flatten

/-- Wire form of `PingData` (one field, `ping_id`), modelled from its uses in src/server.rs and
src/client.rs (the defining common.rs version is missing from src/). -/

structure PingDataWire where
  ping_id : ℕ
  deriving Repr, DecidableEq

/-- Wire form of `ServerToClientPacket`: `WorldState` (variant 0) or `Pong` (variant 1). -/

inductive ServerToClientPacketWire where
  | worldState (w : WorldStateDataWire)
  | pong (p : PingDataWire)
  deriving Repr, DecidableEq

def encodeServerToClient : ServerToClientPacketWire → List ℕ
  | .worldState w => varint 0 ++ encodeWorldState w
  | .pong p => varint 1 ++ varint p.ping_id

/-- A connection as seen by `broadcast_world_state`: its address and pending
pings. -/

structure BroadcastConn where
  addr : ℕ
  pings : List PingDataWire
  deriving Repr, DecidableEq

/-- src/server.rs lines 326-389: `broadcast_world_state`.  The world state is
assembled from the brick/ball/paddle queries (taken here as an already-built
entity list) plus the score entity with `NetId(0)`, encoded **once**, and the
resulting bytes `&world_state_buf[..num_bytes]` are sent verbatim to every
connection, followed by that connection's pending pongs.  No call to
`write_header` and no 9-byte prefix appears anywhere in this path. -/

def broadcast_world_state (frame : ℕ) (entities : List NetEntityWire) (score : ℕ)
    (conns : List BroadcastConn) : List Message :=
  let world : WorldStateDataWire := ⟨frame, entities ++ [⟨.score score, 0⟩]⟩
  let bytes := encodeServerToClient (.worldState world)
  (conns.map (fun c =>
    Message.mk c.addr bytes ::
      c.pings.map (fun p => Message.mk c.addr (encodeServerToClient (.pong p))))).flatten

/-- src/client.rs lines 288-308: the client drops a datagram shorter than
`HEADER_LEN + 1` or whose first 4 bytes are not the big-endian magic. -/

def clientAcceptsDatagram (payload : List ℕ) : Bool :=
  decide (HEADER_LEN + 1 ≤ payload.length) &&
    decide (readU32BE payload = WORLD_PACKET_HEADER_TAG)

/-! ## Theorems -/

theorem rclamp_mem (x lo hi : ℚ) (h : lo ≤ hi) :
    lo ≤ rclamp x lo hi ∧ rclamp x lo hi ≤ hi := by
  constructor
  · exact le_max_left _ _
  · simp only [rclamp, max_le_iff]
    exact ⟨h, min_le_left _ _⟩

theorem BUFFER_LEN_eq : BUFFER_LEN = 2 := by
  have h : (BUFFER_DELAY_S / TICK_S : ℚ) = 34 / 25 := by
    norm_num [BUFFER_DELAY_S, TICK_S, MIN_JITTER_S, TICK_RATE_HZ]
  have : Int.floor (BUFFER_DELAY_S / TICK_S) = 1 := by
    rw [h]
    norm_num [Int.floor_eq_iff]
  simp [BUFFER_LEN, this]

theorem consumeLoop_take_drop (dir x : ℚ) (q : List ReceivedPlayerInput) (hq : q ≠ []) :
    (consumeLoop dir x q).2.1 = q.drop (consumeCount q.length) ∧
    (consumeLoop dir x q).2.2 = q.take (consumeCount q.length) := by
  induction q generalizing dir x with
  | nil => exact absurd rfl hq
  | cons i rest ih =>
    by_cases h : rest.length < BUFFER_LEN
    · have hcc : consumeCount (rest.length + 1) = 1 := by
        simp only [consumeCount]
        omega
      simp [consumeLoop, h, List.length_cons, hcc]
    · have hrest : rest ≠ [] := by
        intro habs
        rw [habs] at h
        simp [BUFFER_LEN] at h
      have hcc : consumeCount (i :: rest).length = consumeCount rest.length + 1 := by
        simp only [consumeCount, List.length_cons]
        omega
      have := ih (dir + dirDelta i.data.key_mask)
        (rclamp (x + (dir + dirDelta i.data.key_mask) * PADDLE_SPEED * TICK_S)
          PADDLE_LEFT_BOUND PADDLE_RIGHT_BOUND) hrest
      simp only [consumeLoop, h, if_false, hcc]
      constructor
      · rw [List.drop_succ_cons]
        exact this.1
      · rw [List.take_succ_cons]
        rw [this.2]

theorem consumeCount_pos (n : ℕ) : 1 ≤ consumeCount n := le_max_left _ _

theorem consumeCount_stops (n : ℕ) : n - consumeCount n < BUFFER_LEN := by
  simp only [consumeCount]
  have : 1 ≤ BUFFER_LEN := by rw [BUFFER_LEN_eq]; omega
  omega

theorem consumeCount_continues (n j : ℕ) (h1 : 1 ≤ j) (h2 : j < consumeCount n) :
    BUFFER_LEN ≤ n - j := by
  simp only [consumeCount] at h2
  omega

theorem take_pos_ne_nil {α : Type} : ∀ (k : ℕ) (l : List α), 1 ≤ k → l ≠ [] → l.take k ≠ []
  | _ + 1, _ :: _, _, _ => by simp
  | 0, _, h, _ => absurd h (by omega)
  | _ + 1, [], _, h => absurd rfl h

/-- C2: The per-connection input buffer behaves as a two-state machine: in
Buffering, no input is consumed on a tick where the queue is empty or
`now - oldest.time_received < BUFFER_DELAY_S`, and otherwise the state becomes
Playing and consumption starts; in Playing with a non-empty queue, at least one
input is consumed per tick in FIFO order, consumption continues while the
remaining queue length is at least `BUFFER_LEN`, and an empty queue sends the
state back to Buffering with nothing consumed that tick. -/

theorem c2_input_buffer_state_machine (now x : ℚ) (st : NetInputState)
    (q : List ReceivedPlayerInput) :
    ((st = .buffering → q = [] →
        processConnInput now st q x = ⟨.buffering, [], x, []⟩) ∧
     (∀ front rest, st = .buffering → q = front :: rest →
        now - front.time_received < BUFFER_DELAY_S →
        processConnInput now st q x = ⟨.buffering, q, x, []⟩) ∧
     (∀ front rest, st = .buffering → q = front :: rest →
        ¬ now - front.time_received < BUFFER_DELAY_S →
        (processConnInput now st q x).state = .playing ∧
        (processConnInput now st q x).consumed ≠ [])) ∧
    ((st = .playing → q = [] →
        processConnInput now st q x = ⟨.buffering, [], x, []⟩) ∧
     (st = .playing → q ≠ [] →
        (processConnInput now st q x).state = .playing ∧
        (processConnInput now st q x).consumed = q.take (consumeCount q.length) ∧
        (processConnInput now st q x).queue = q.drop (consumeCount q.length) ∧
        1 ≤ consumeCount q.length ∧
        q.length - consumeCount q.length < BUFFER_LEN ∧
        (∀ j, 1 ≤ j → j < consumeCount q.length → BUFFER_LEN ≤ q.length - j))) := by
  refine ⟨⟨?_, ?_, ?_⟩, ?_, ?_⟩
  · rintro rfl rfl
    rfl
  · rintro front rest rfl rfl hlt
    simp [processConnInput, hlt]
  · rintro front rest rfl rfl hlt
    have hne : front :: rest ≠ [] := by simp
    have h := consumeLoop_take_drop 0 x (front :: rest) hne
    constructor
    · simp [processConnInput, hlt]
    · simp only [processConnInput, hlt, if_false]
      rw [h.2]
      exact take_pos_ne_nil _ _ (consumeCount_pos _) (by simp)
  · rintro rfl rfl
    rfl
  · rintro rfl hq
    match q, hq with
    | front :: rest, _ =>
      have hne : front :: rest ≠ [] := by simp
      have h := consumeLoop_take_drop 0 x (front :: rest) hne
      refine ⟨rfl, ?_, ?_, consumeCount_pos _, consumeCount_stops _, ?_⟩
      · simpa [processConnInput] using h.2
      · simpa [processConnInput] using h.1
      · intro j h1 h2
        exact consumeCount_continues _ j h1 h2

theorem c2_input_buffer_witness :
    (processConnInput 1 .playing [leftIn 1, leftIn 2, leftIn 3] 0).consumed
        = [leftIn 1, leftIn 2] ∧
    (processConnInput 1 .playing [leftIn 1, leftIn 2, leftIn 3] 0).queue = [leftIn 3] ∧
    (processConnInput 1 .playing [leftIn 1, leftIn 2, leftIn 3] 0).state = .playing := by
  have h := (c2_input_buffer_state_machine 1 0 .playing [leftIn 1, leftIn 2, leftIn 3]).2.2
    rfl (by simp)
  have hk : consumeCount ([leftIn 1, leftIn 2, leftIn 3].length) = 2 := by
    simp [consumeCount, BUFFER_LEN_eq]
  refine ⟨?_, ?_, h.1⟩
  · rw [h.2.1, hk]
    rfl
  · rw [h.2.2.1, hk]
    rfl

theorem consumeLoop_foldl (dir x : ℚ) (q : List ReceivedPlayerInput) (hq : q ≠ []) :
    (consumeLoop dir x q).1
      = ((q.take (consumeCount q.length)).foldl accumStep (dir, x)).2 := by
  induction q generalizing dir x with
  | nil => exact absurd rfl hq
  | cons i rest ih =>
    by_cases h : rest.length < BUFFER_LEN
    · have hcc : consumeCount (rest.length + 1) = 1 := by
        simp only [consumeCount]
        omega
      simp [consumeLoop, h, List.length_cons, hcc, accumStep]
    · have hrest : rest ≠ [] := by
        intro habs
        rw [habs] at h
        simp [BUFFER_LEN] at h
      have hcc : consumeCount (rest.length + 1) = consumeCount rest.length + 1 := by
        simp only [consumeCount]
        omega
      have hih := ih (dir + dirDelta i.data.key_mask)
        (rclamp (x + (dir + dirDelta i.data.key_mask) * PADDLE_SPEED * TICK_S)
          PADDLE_LEFT_BOUND PADDLE_RIGHT_BOUND) hrest
      simp only [consumeLoop, h, if_false, List.length_cons, hcc, List.take_succ_cons,
        List.foldl_cons]
      exact hih

theorem paddle_bounds_le : PADDLE_LEFT_BOUND ≤ PADDLE_RIGHT_BOUND := by
  norm_num [PADDLE_LEFT_BOUND, PADDLE_RIGHT_BOUND, LEFT_WALL, RIGHT_WALL,
    WALL_THICKNESS, PADDLE_SIZE_X, PADDLE_PADDING]

theorem accumMove_foldl_mem (cs : List ReceivedPlayerInput) (hcs : cs ≠ []) (d x : ℚ) :
    PADDLE_LEFT_BOUND ≤ (cs.foldl accumStep (d, x)).2 ∧
    (cs.foldl accumStep (d, x)).2 ≤ PADDLE_RIGHT_BOUND := by
  induction cs generalizing d x with
  | nil => exact absurd rfl hcs
  | cons i rest ih =>
    match rest, ih with
    | [], _ =>
      simpa [accumStep] using
        rclamp_mem (x + (d + dirDelta i.data.key_mask) * PADDLE_SPEED * TICK_S)
          PADDLE_LEFT_BOUND PADDLE_RIGHT_BOUND paddle_bounds_le
    | r :: rs, ih =>
      simp only [List.foldl_cons]
      exact ih (by simp) _ _

/-- C7 counterexample: with `BUFFER_LEN = 2`, a Playing connection holding
three Left inputs consumes two of them in one tick; the code's `direction`
accumulator makes the second movement use direction −2, so the resulting x is
−25 and not the −50/3 the per-input rule of claim C7 yields. -/

theorem c7_paddle_move_counterexample :
    (processConnInput 1 .playing [leftIn 1, leftIn 2, leftIn 3] 0).paddleX
      ≠ claimPerInputMove 0
          (processConnInput 1 .playing [leftIn 1, leftIn 2, leftIn 3] 0).consumed := by
  have hb1 : 1 &&& (1 <<< 0) ≠ 0 := by decide
  have hb2 : 1 &&& (1 <<< 1) = 0 := by decide
  have hdir : dirDelta 1 = -1 := by
    simp [dirDelta, hb1, hb2]
  norm_num [processConnInput, consumeLoop, claimPerInputMove, BUFFER_LEN_eq, leftIn,
    hdir, rclamp, PADDLE_SPEED, TICK_S, TICK_RATE_HZ, PADDLE_LEFT_BOUND,
    PADDLE_RIGHT_BOUND, LEFT_WALL, RIGHT_WALL, WALL_THICKNESS, PADDLE_SIZE_X,
    PADDLE_PADDING, min_def, max_def]

/-- C7 amended: for every tick, the paddle position is the fold of the
clamped updates over the consumed inputs where the direction is the
**accumulated** sum of the key-mask contributions of all inputs consumed so
far this tick (src/server.rs declares `direction` once per tick); the clamp
bound `PADDLE_LEFT_BOUND ≤ x ≤ PADDLE_RIGHT_BOUND` is preserved across any
tick. -/

theorem c7_paddle_move_amended (now x : ℚ) (st : NetInputState)
    (q : List ReceivedPlayerInput)
    (hx : PADDLE_LEFT_BOUND ≤ x ∧ x ≤ PADDLE_RIGHT_BOUND) :
    (processConnInput now st q x).paddleX
        = accumMove x (processConnInput now st q x).consumed ∧
    PADDLE_LEFT_BOUND ≤ (processConnInput now st q x).paddleX ∧
    (processConnInput now st q x).paddleX ≤ PADDLE_RIGHT_BOUND := by
  have key : ∀ (qq : List ReceivedPlayerInput), qq ≠ [] →
      (consumeLoop 0 x qq).1 = accumMove x (qq.take (consumeCount qq.length)) ∧
      PADDLE_LEFT_BOUND ≤ (consumeLoop 0 x qq).1 ∧
      (consumeLoop 0 x qq).1 ≤ PADDLE_RIGHT_BOUND := by
    intro qq hqq
    have h1 := consumeLoop_foldl 0 x qq hqq
    have htk : qq.take (consumeCount qq.length) ≠ [] :=
      take_pos_ne_nil _ _ (consumeCount_pos _) hqq
    have h2 := accumMove_foldl_mem (qq.take (consumeCount qq.length)) htk 0 x
    exact ⟨h1, by rw [h1]; exact h2.1, by rw [h1]; exact h2.2⟩
  match st, q with
  | .buffering, [] => exact ⟨rfl, hx.1, hx.2⟩
  | .buffering, front :: rest =>
    by_cases hlt : now - front.time_received < BUFFER_DELAY_S
    · simp only [processConnInput, hlt, if_true]
      exact ⟨rfl, hx.1, hx.2⟩
    · have h := key (front :: rest) (by simp)
      have hcons : (processConnInput now .buffering (front :: rest) x).consumed
          = (front :: rest).take (consumeCount (front :: rest).length) := by
        simp only [processConnInput, hlt, if_false]
        exact (consumeLoop_take_drop 0 x (front :: rest) (by simp)).2
      refine ⟨?_, ?_, ?_⟩
      · rw [hcons]
        simpa [processConnInput, hlt] using h.1
      · simpa [processConnInput, hlt] using h.2.1
      · simpa [processConnInput, hlt] using h.2.2
  | .playing, [] => exact ⟨rfl, hx.1, hx.2⟩
  | .playing, front :: rest =>
    have h := key (front :: rest) (by simp)
    have hcons : (processConnInput now .playing (front :: rest) x).consumed
        = (front :: rest).take (consumeCount (front :: rest).length) := by
      simp only [processConnInput]
      exact (consumeLoop_take_drop 0 x (front :: rest) (by simp)).2
    refine ⟨?_, ?_, ?_⟩
    · rw [hcons]
      simpa [processConnInput] using h.1
    · simpa [processConnInput] using h.2.1
    · simpa [processConnInput] using h.2.2

theorem c7_paddle_move_amended_witness :
    PADDLE_LEFT_BOUND ≤ (0 : ℚ) ∧ (0 : ℚ) ≤ PADDLE_RIGHT_BOUND ∧
    (processConnInput 1 .playing [leftIn 1, leftIn 2, leftIn 3] 0).paddleX
      = accumMove 0 (processConnInput 1 .playing [leftIn 1, leftIn 2, leftIn 3] 0).consumed := by
  have hL : PADDLE_LEFT_BOUND ≤ (0 : ℚ) := by
    norm_num [PADDLE_LEFT_BOUND, LEFT_WALL, WALL_THICKNESS, PADDLE_SIZE_X, PADDLE_PADDING]
  have hR : (0 : ℚ) ≤ PADDLE_RIGHT_BOUND := by
    norm_num [PADDLE_RIGHT_BOUND, RIGHT_WALL, WALL_THICKNESS, PADDLE_SIZE_X, PADDLE_PADDING]
  exact ⟨hL, hR,
    (c7_paddle_move_amended 1 0 .playing [leftIn 1, leftIn 2, leftIn 3] ⟨hL, hR⟩).1⟩

theorem drainSimLoop_true_eq (now : ℚ) :
    ∀ (ms : List Message) (ts : List ℚ), ms.length = ts.length →
      ts.Sorted (· ≤ ·) →
      drainSimLoop now (fun _ => true) ms ts =
        (ms.take (ts.takeWhile (fun t => decide (t ≤ now))).length,
         ms.drop (ts.takeWhile (fun t => decide (t ≤ now))).length,
         ts.drop (ts.takeWhile (fun t => decide (t ≤ now))).length) := by
  intro ms
  induction ms with
  | nil =>
    intro ts hlen _
    have : ts = [] := List.length_eq_zero.mp (by simpa using hlen.symm)
    subst this
    rfl
  | cons m ms ih =>
    intro ts hlen hsort
    match ts with
    | [] => simp at hlen
    | t :: ts =>
      have hlen2 : ms.length = ts.length := by simpa using hlen
      have hsort2 : ts.Sorted (· ≤ ·) := hsort.tail
      by_cases ht : t ≤ now
      · simp only [drainSimLoop, ht, true_and, if_pos rfl, List.takeWhile_cons,
          decide_eq_true ht, ih ts hlen2 hsort2]
        simp
      · have hrest : (ts.takeWhile (fun t => decide (t ≤ now))).length = 0 := by
          match ts, hsort with
          | [], _ => rfl
          | u :: us, hs =>
            have htu : t ≤ u := (List.sorted_cons.mp hs).1 u (by simp)
            have : ¬ u ≤ now := fun hu => ht (le_trans htu hu)
            simp [List.takeWhile_cons, this]
        have hcond : ¬ (t ≤ now ∧ (fun (_ : Message) => true) m = true) := by
          intro habs
          exact ht habs.1
        simp only [drainSimLoop, if_neg hcond, ih ts hlen2 hsort2, hrest,
          List.takeWhile_cons, decide_eq_false ht]
        simp
        exact lt_of_not_le ht

theorem drop_takeWhile_length {α : Type} (p : α → Bool) :
    ∀ l : List α, l.drop (l.takeWhile p).length = l.dropWhile p := by
  intro l
  induction l with
  | nil => rfl
  | cons a l ih =>
    by_cases h : p a = true
    · simp [List.takeWhile_cons, List.dropWhile_cons, h, ih]
    · simp [List.takeWhile_cons, List.dropWhile_cons, h]

theorem sorted_dropWhile_gt (now : ℚ) :
    ∀ ts : List ℚ, ts.Sorted (· ≤ ·) →
      ∀ t ∈ ts.dropWhile (fun u => decide (u ≤ now)), now < t := by
  intro ts
  induction ts with
  | nil => intro _ t ht; simp at ht
  | cons a l ih =>
    intro hsort t ht
    by_cases h : a ≤ now
    · rw [List.dropWhile_cons, if_pos (by simpa using h)] at ht
      exact ih hsort.tail t ht
    · rw [List.dropWhile_cons, if_neg (by simpa using h)] at ht
      rcases List.mem_cons.mp ht with rfl | hmem
      · exact lt_of_not_le h
      · exact lt_of_lt_of_le (lt_of_not_le h) ((List.sorted_cons.mp hsort).1 t hmem)

/-- C4: With a send-side latency profile set, `Transport::send` either drops
the message or enqueues it with a release time: the release-time queue stays
sorted (earliest first, as a stable ordered insert) while the message itself
goes to the back of the FIFO; `drain_messages_to_send` with an always-true
filter returns exactly the prefix of messages whose (positionally paired)
release time is ≤ now, in send order, and removes those entries from both
queues; every remaining release time is > now. -/

theorem c4_transport_send_drain (tp : Transport) (now : ℚ)
    (hset : tp.simSendSet = true)
    (hsort : tp.sim_send_times.Sorted (· ≤ ·))
    (hlen : tp.messages.length = tp.sim_send_times.length) :
    (∀ d p t, tp.send true t d p = tp) ∧
    (∀ d p t,
      (tp.send false t d p).messages = tp.messages ++ [⟨d, p⟩] ∧
      (tp.send false t d p).sim_send_times
          = List.orderedInsert (· ≤ ·) t tp.sim_send_times ∧
      (tp.send false t d p).sim_send_times.Sorted (· ≤ ·) ∧
      (tp.send false t d p).sim_send_times.Perm (t :: tp.sim_send_times)) ∧
    ((tp.drain_messages_to_send now (fun _ => true)).1
        = tp.messages.take
            (tp.sim_send_times.takeWhile (fun u => decide (u ≤ now))).length ∧
     (tp.drain_messages_to_send now (fun _ => true)).2.messages
        = tp.messages.drop
            (tp.sim_send_times.takeWhile (fun u => decide (u ≤ now))).length ∧
     (tp.drain_messages_to_send now (fun _ => true)).2.sim_send_times
        = tp.sim_send_times.drop
            (tp.sim_send_times.takeWhile (fun u => decide (u ≤ now))).length ∧
     (∀ t ∈ tp.sim_send_times.takeWhile (fun u => decide (u ≤ now)), t ≤ now) ∧
     (∀ t ∈ (tp.drain_messages_to_send now (fun _ => true)).2.sim_send_times,
        now < t)) := by
  refine ⟨?_, ?_, ?_⟩
  · intro d p t
    simp [Transport.send, rollSimLatency, hset]
  · intro d p t
    refine ⟨?_, ?_, ?_, ?_⟩
    · simp [Transport.send, rollSimLatency, hset]
    · simp [Transport.send, rollSimLatency, hset]
    · simp only [Transport.send, rollSimLatency, hset]
      simpa using List.Sorted.orderedInsert t tp.sim_send_times hsort
    · simp only [Transport.send, rollSimLatency, hset]
      simpa using List.perm_orderedInsert _ t tp.sim_send_times
  · have hdr := drainSimLoop_true_eq now tp.messages tp.sim_send_times hlen hsort
    have hout : tp.drain_messages_to_send now (fun _ => true)
        = ((tp.messages.take
              (tp.sim_send_times.takeWhile (fun u => decide (u ≤ now))).length),
           { tp with
             messages := tp.messages.drop
               (tp.sim_send_times.takeWhile (fun u => decide (u ≤ now))).length,
             sim_send_times := tp.sim_send_times.drop
               (tp.sim_send_times.takeWhile (fun u => decide (u ≤ now))).length }) := by
      simp [Transport.drain_messages_to_send, hset, hdr]
    refine ⟨by rw [hout], by rw [hout], by rw [hout], ?_, ?_⟩
    · intro t ht
      simpa using List.mem_takeWhile_imp ht
    · intro t ht
      rw [hout] at ht
      simp only at ht
      rw [drop_takeWhile_length] at ht
      exact sorted_dropWhile_gt now tp.sim_send_times hsort t ht

theorem c4_transport_send_drain_witness :
    (Transport.send ⟨[⟨0, [1]⟩, ⟨0, [2]⟩], [1, 5], true⟩ true 3 0 [9]
        = ⟨[⟨0, [1]⟩, ⟨0, [2]⟩], [1, 5], true⟩) ∧
    (Transport.drain_messages_to_send ⟨[⟨0, [1]⟩, ⟨0, [2]⟩], [1, 5], true⟩ 2
        (fun _ => true)).1 = [⟨0, [1]⟩] := by
  have hsort : ([1, 5] : List ℚ).Sorted (· ≤ ·) := by
    simp
  have h := c4_transport_send_drain ⟨[⟨0, [1]⟩, ⟨0, [2]⟩], [1, 5], true⟩ 2 rfl hsort rfl
  refine ⟨h.1 0 [9] 3, ?_⟩
  rw [h.2.2.1]
  have : (([1, 5] : List ℚ).takeWhile (fun u => decide (u ≤ 2))).length = 1 := by
    norm_num [List.takeWhile_cons]
  rw [this]
  rfl

theorem drainSimLoop_len (now : ℚ) (filter : Message → Bool) :
    ∀ (ms : List Message) (ts : List ℚ), ms.length = ts.length →
      (drainSimLoop now filter ms ts).2.1.length
        = (drainSimLoop now filter ms ts).2.2.length := by
  intro ms
  induction ms with
  | nil =>
    intro ts hlen
    have : ts = [] := List.length_eq_zero.mp (by simpa using hlen.symm)
    subst this
    rfl
  | cons m ms ih =>
    intro ts hlen
    match ts with
    | [] => simp at hlen
    | t :: ts =>
      have hlen2 : ms.length = ts.length := by simpa using hlen
      by_cases h : t ≤ now ∧ filter m = true
      · simpa [drainSimLoop, if_pos h] using ih ts hlen2
      · simpa [drainSimLoop, if_neg h] using ih ts hlen2

theorem transportInv_step (tp : Transport) (op : TransportOp)
    (hinv : TransportInv tp) : TransportInv (applyTransportOp tp op) := by
  obtain ⟨h1, h2⟩ := hinv
  cases op with
  | send l t d p =>
    cases hb : tp.simSendSet with
    | false =>
      have hroll : rollSimLatency false l t = .noOp := by
        simp [rollSimLatency]
      refine ⟨fun hs => ?_, fun _ => ?_⟩
      · simp [applyTransportOp, Transport.send, hb, hroll] at hs
      · simp [applyTransportOp, Transport.send, hb, hroll, h2 hb]
    | true =>
      cases l with
      | true =>
        have hroll : rollSimLatency true true t = .drop := by
          simp [rollSimLatency]
        refine ⟨fun _ => ?_, fun hs => ?_⟩
        · simpa [applyTransportOp, Transport.send, hb, hroll] using h1 hb
        · simp [applyTransportOp, Transport.send, hb, hroll] at hs
      | false =>
        have hroll : rollSimLatency true false t = .delay t := by
          simp [rollSimLatency]
        refine ⟨fun _ => ?_, fun hs => ?_⟩
        · simp [applyTransportOp, Transport.send, hb, hroll, List.orderedInsert_length,
            h1 hb]
        · simp [applyTransportOp, Transport.send, hb, hroll] at hs
  | drain now f =>
    cases hb : tp.simSendSet with
    | false =>
      refine ⟨fun hs => ?_, fun _ => ?_⟩
      · simp [applyTransportOp, Transport.drain_messages_to_send, hb] at hs
      · simp [applyTransportOp, Transport.drain_messages_to_send, hb, h2 hb]
    | true =>
      refine ⟨fun _ => ?_, fun hs => ?_⟩
      · simpa [applyTransportOp, Transport.drain_messages_to_send, hb] using
          drainSimLoop_len now f tp.messages tp.sim_send_times (h1 hb)
      · simp [applyTransportOp, Transport.drain_messages_to_send, hb] at hs

/-- C10: every sequence of `Transport::send` and `drain_messages_to_send`
calls, starting from `Transport::new`, preserves the property that with the
send-side latency settings set the message queue and the release-time queue
have equal length, and without them the release-time queue is empty — exactly
the two assertions at the top of `drain_messages_to_send`, which therefore
can never fail. -/

theorem c10_transport_queue_invariant (isSet : Bool) (ops : List TransportOp) :
    TransportInv (ops.foldl applyTransportOp (Transport.new isSet)) := by
  have main : ∀ (l : List TransportOp) (tp : Transport), TransportInv tp →
      TransportInv (l.foldl applyTransportOp tp) := by
    intro l
    induction l with
    | nil => exact fun tp h => h
    | cons op rest ih => exact fun tp h => ih _ (transportInv_step tp op h)
  exact main ops _ ⟨fun _ => rfl, fun _ => rfl⟩

/-- C6: when the ball-versus-AABB handler acts (the circle intersects the
box), the collision side lies on the axis of larger absolute offset from the
closest point on the box to the circle center; the velocity component on that
axis is negated exactly when it points into the obstacle (and the other
component is untouched); and in every case the squared speed — hence the
speed magnitude — is unchanged by the reflection. -/

theorem c6_ball_collision_reflection (ball : BoundingCircle) (box : Aabb2d)
    (side : Collision) (v : Vec2)
    (h : ball_collision ball box = some side) :
    ((|ball.center.x - (box.closest_point ball.center).x|
        > |ball.center.y - (box.closest_point ball.center).y| →
        side = .left ∨ side = .right) ∧
     (|ball.center.x - (box.closest_point ball.center).x|
        ≤ |ball.center.y - (box.closest_point ball.center).y| →
        side = .top ∨ side = .bottom)) ∧
    (¬ pointsIntoObstacle side v → reflectBallVelocity side v = v) ∧
    (pointsIntoObstacle side v →
      ((side = .left ∨ side = .right) → reflectBallVelocity side v = ⟨-v.x, v.y⟩) ∧
      ((side = .top ∨ side = .bottom) → reflectBallVelocity side v = ⟨v.x, -v.y⟩)) ∧
    sqNorm (reflectBallVelocity side v) = sqNorm v := by
  have hside :
      side = (if |ball.center.x - (box.closest_point ball.center).x|
                  > |ball.center.y - (box.closest_point ball.center).y| then
               (if ball.center.x - (box.closest_point ball.center).x < 0 then
                 Collision.left else Collision.right)
              else if ball.center.y - (box.closest_point ball.center).y > 0 then
                Collision.top
              else Collision.bottom) := by
    by_cases hi : ball.intersectsAabb box
    · simp only [ball_collision, hi, not_true, if_neg, Option.some.injEq,
        if_false] at h
      exact h.symm
    · simp [ball_collision, hi] at h
  refine ⟨?_, ?_, ?_, ?_⟩
  · constructor
    · intro hx
      rw [hside]
      simp only [if_pos hx]
      by_cases hneg : ball.center.x - (box.closest_point ball.center).x < 0
      · exact Or.inl (by simp [hneg])
      · exact Or.inr (by simp [hneg])
    · intro hy
      rw [hside]
      rw [if_neg (not_lt.mpr hy)]
      by_cases hpos : ball.center.y - (box.closest_point ball.center).y > 0
      · exact Or.inl (by simp [hpos])
      · exact Or.inr (by simp [hpos])
  · intro hnot
    cases side with
    | left =>
      simp only [pointsIntoObstacle, not_lt] at hnot
      simp [reflectBallVelocity, reflectFlags, decide_eq_false (not_lt.mpr hnot)]
    | right =>
      simp only [pointsIntoObstacle, not_lt] at hnot
      simp [reflectBallVelocity, reflectFlags, decide_eq_false (not_lt.mpr hnot)]
    | top =>
      simp only [pointsIntoObstacle, not_lt] at hnot
      simp [reflectBallVelocity, reflectFlags, decide_eq_false (not_lt.mpr hnot)]
    | bottom =>
      simp only [pointsIntoObstacle, not_lt] at hnot
      simp [reflectBallVelocity, reflectFlags, decide_eq_false (not_lt.mpr hnot)]
  · intro hinto
    constructor
    · rintro (rfl | rfl) <;>
        simp only [pointsIntoObstacle] at hinto <;>
        simp [reflectBallVelocity, reflectFlags, hinto]
    · rintro (rfl | rfl) <;>
        simp only [pointsIntoObstacle] at hinto <;>
        simp [reflectBallVelocity, reflectFlags, hinto]
  · cases side <;>
      simp only [reflectBallVelocity, reflectFlags, sqNorm, Bool.false_eq_true,
        if_false] <;>
      split <;> ring

theorem c6_ball_collision_reflection_witness :
    ball_collision ⟨⟨0, 10⟩, 15⟩ (Aabb2d.new ⟨0, 0⟩ ⟨50, 5⟩) = some .top ∧
    reflectBallVelocity .top ⟨3, -4⟩ = ⟨3, 4⟩ ∧
    sqNorm (reflectBallVelocity .top ⟨3, -4⟩) = sqNorm ⟨3, -4⟩ := by
  have hcol : ball_collision ⟨⟨0, 10⟩, 15⟩ (Aabb2d.new ⟨0, 0⟩ ⟨50, 5⟩) = some .top := by
    norm_num [ball_collision, BoundingCircle.intersectsAabb, Aabb2d.new,
      Aabb2d.closest_point, distSq, rclamp, min_def, max_def]
  have h := c6_ball_collision_reflection ⟨⟨0, 10⟩, 15⟩ (Aabb2d.new ⟨0, 0⟩ ⟨50, 5⟩)
    .top ⟨3, -4⟩ hcol
  have hin : pointsIntoObstacle .top ⟨3, -4⟩ := by
    norm_num [pointsIntoObstacle]
  exact ⟨hcol, ((h.2.2.1 hin).2 (Or.inl rfl)), h.2.2.2⟩

theorem lookup_updateConn_self (l : List (ℕ × ℚ)) (a : ℕ) (t : ℚ) :
    lookupConn (updateConn l a t) a = some t := by
  induction l with
  | nil => simp [updateConn, lookupConn]
  | cons p rest ih =>
    obtain ⟨b, u⟩ := p
    by_cases h : b = a
    · simp [updateConn, h, lookupConn]
    · simp only [updateConn, if_neg h]
      have hd : (decide (b = a)) = false := decide_eq_false h
      simp only [lookupConn, List.find?_cons, hd] at ih ⊢
      exact ih

theorem lookup_updateConn_other (l : List (ℕ × ℚ)) (a b : ℕ) (t : ℚ) (hne : b ≠ a) :
    lookupConn (updateConn l a t) b = lookupConn l b := by
  have hab : (decide (a = b)) = false := decide_eq_false (fun hh => hne hh.symm)
  induction l with
  | nil => simp [updateConn, lookupConn, hab]
  | cons p rest ih =>
    obtain ⟨c, u⟩ := p
    by_cases h : c = a
    · subst h
      simp [updateConn, lookupConn, List.find?_cons, hab]
    · simp only [updateConn, if_neg h]
      by_cases hcb : c = b
      · subst hcb
        simp [lookupConn, List.find?_cons]
      · have hd : (decide (c = b)) = false := decide_eq_false hcb
        simp only [lookupConn, List.find?_cons, hd] at ih ⊢
        exact ih

theorem mem_updateConn_self (l : List (ℕ × ℚ)) (a : ℕ) (t : ℚ) :
    (a, t) ∈ updateConn l a t := by
  induction l with
  | nil => simp [updateConn]
  | cons p rest ih =>
    obtain ⟨b, u⟩ := p
    by_cases h : b = a
    · simp [updateConn, h]
    · simp [updateConn, h, ih]

/-- C5 counterexample: a zero-length datagram from an address not yet in the
registry is not a pure liveness refresh — it creates the registry entry and
emits a `Connected` event (which the server's connection handler turns into a
paddle, ball and connection spawn). -/

theorem c5_heartbeat_counterexample :
    server_recv_datagram [] 7 0 [] 0 = ([(7, 0)], [ServerNetEvent.connected 7]) ∧
    (server_recv_datagram [] 7 0 [] 0).2 ≠ [] := by
  constructor
  · rfl
  · intro habs
    simp [server_recv_datagram, updateConn] at habs

/-- C5 amended: a zero-length datagram from a sender already in the
connection registry is discarded silently with no effect other than
refreshing that sender's liveness timestamp — no event of any kind (hence no
`Message` event and no input enqueued downstream), every other entry
unchanged; a first datagram from an unknown address additionally registers it
and emits `Connected`.  The heartbeat payload is zero-length, and a
connection refreshed within `DEFAULT_HEARTBEAT_TICK_RATE_SECS` (2 s) survives
the idle sweep with its `DEFAULT_IDLE_TIMEOUT_SECS` (5 s) timeout. -/

theorem c5_heartbeat_amended (conns : List (ℕ × ℚ)) (addr : ℕ)
    (elapsed recvTime now : ℚ)
    (hknown : (conns.find? (fun p => decide (p.1 = addr))).isSome = true) :
    (server_recv_datagram conns addr elapsed [] recvTime).2 = [] ∧
    (server_recv_datagram conns addr elapsed [] recvTime).1
        = updateConn conns addr elapsed ∧
    lookupConn (server_recv_datagram conns addr elapsed [] recvTime).1 addr
        = some elapsed ∧
    (∀ b, b ≠ addr →
      lookupConn (server_recv_datagram conns addr elapsed [] recvTime).1 b
        = lookupConn conns b) ∧
    (∀ lossRoll delayT,
      (auto_heartbeat_system (Transport.new false) lossRoll delayT addr).messages
        = [⟨addr, []⟩]) ∧
    (now - elapsed ≤ DEFAULT_HEARTBEAT_TICK_RATE_SECS →
      (addr, elapsed) ∈ (idle_timeout_system now DEFAULT_IDLE_TIMEOUT_SECS
        (updateConn conns addr elapsed)).1) := by
  have hnotNew : (conns.find? (fun p => decide (p.1 = addr))).isNone = false := by
    rcases Option.isSome_iff_exists.mp hknown with ⟨v, hv⟩
    simp [hv]
  have hout : server_recv_datagram conns addr elapsed [] recvTime
      = (updateConn conns addr elapsed, []) := by
    simp [server_recv_datagram, hnotNew]
  refine ⟨by rw [hout], by rw [hout], ?_, ?_, ?_, ?_⟩
  · rw [hout]
    exact lookup_updateConn_self conns addr elapsed
  · intro b hb
    rw [hout]
    exact lookup_updateConn_other conns addr b elapsed hb
  · intro lossRoll delayT
    cases lossRoll <;> rfl
  · intro hfresh
    have hto : ¬ now - elapsed > DEFAULT_IDLE_TIMEOUT_SECS := by
      rw [DEFAULT_IDLE_TIMEOUT_SECS]
      rw [DEFAULT_HEARTBEAT_TICK_RATE_SECS] at hfresh
      intro habs
      linarith
    simp only [idle_timeout_system, List.mem_filter]
    exact ⟨mem_updateConn_self conns addr elapsed, by simpa using hto⟩

theorem c5_heartbeat_amended_witness :
    (server_recv_datagram [(7, 0)] 7 3 [] 3).2 = [] ∧
    lookupConn (server_recv_datagram [(7, 0)] 7 3 [] 3).1 7 = some 3 ∧
    (7, 3) ∈ (idle_timeout_system 4 DEFAULT_IDLE_TIMEOUT_SECS
      (updateConn [(7, 0)] 7 3)).1 := by
  have hknown : (([(7, 0)] : List (ℕ × ℚ)).find?
      (fun p => decide (p.1 = 7))).isSome = true := by
    simp
  have h := c5_heartbeat_amended [(7, 0)] 7 3 3 4 hknown
  refine ⟨h.1, h.2.2.1, h.2.2.2.2.2 ?_⟩
  rw [DEFAULT_HEARTBEAT_TICK_RATE_SECS]
  norm_num

/-- C8: the idle sweep retains exactly the connections whose time since last
datagram is within the timeout, emits a Disconnected for every other
registered connection, and handling such an event despawns exactly that
peer's paddle entity, ball entity and connection entity and removes exactly
its address from the registry. -/

theorem c8_idle_timeout (elapsed idleTimeout : ℚ) (conns : List (ℕ × ℚ))
    (handle id : ℕ) (conn : NetConnection) (w : ServerEcs)
    (hfind : w.addr_to_entity.find? (fun p => decide (p.1 = handle)) = some (handle, id))
    (hconn : w.connComponents.find? (fun p => decide (p.1 = id)) = some (id, conn)) :
    (∀ p, p ∈ (idle_timeout_system elapsed idleTimeout conns).1 ↔
        (p ∈ conns ∧ ¬ elapsed - p.2 > idleTimeout)) ∧
    (∀ a t, (a, t) ∈ conns → elapsed - t > idleTimeout →
        a ∈ (idle_timeout_system elapsed idleTimeout conns).2) ∧
    (∀ a, a ∈ (idle_timeout_system elapsed idleTimeout conns).2 →
        ∃ t, (a, t) ∈ conns ∧ elapsed - t > idleTimeout) ∧
    (∀ e, e ∈ (handle_client_disconnected handle w).alive ↔
        (e ∈ w.alive ∧ e ≠ conn.paddle_entity ∧ e ≠ conn.ball_entity ∧ e ≠ id)) ∧
    (∀ q, q ∈ (handle_client_disconnected handle w).addr_to_entity ↔
        (q ∈ w.addr_to_entity ∧ q.1 ≠ handle)) ∧
    (∀ q, q ∈ (handle_client_disconnected handle w).connComponents ↔
        (q ∈ w.connComponents ∧ q.1 ≠ id)) := by
  have hw : handle_client_disconnected handle w =
      { alive := w.alive.filter
          (fun e => !(decide (e = conn.paddle_entity) ||
                      decide (e = conn.ball_entity) || decide (e = id))),
        connComponents := w.connComponents.filter (fun p => !(decide (p.1 = id))),
        addr_to_entity := w.addr_to_entity.filter (fun p => !(decide (p.1 = handle))) } := by
    simp only [handle_client_disconnected, hfind, hconn]
  refine ⟨?_, ?_, ?_, ?_, ?_, ?_⟩
  · intro p
    simp only [idle_timeout_system, List.mem_filter]
    constructor
    · rintro ⟨hm, hc⟩
      exact ⟨hm, by simpa using hc⟩
    · rintro ⟨hm, hc⟩
      exact ⟨hm, by simpa using hc⟩
  · intro a t hm hto
    simp only [idle_timeout_system, List.mem_map]
    exact ⟨(a, t), List.mem_filter.mpr ⟨hm, by simpa using hto⟩, rfl⟩
  · intro a ha
    simp only [idle_timeout_system, List.mem_map] at ha
    obtain ⟨p, hp, rfl⟩ := ha
    have := List.mem_filter.mp hp
    exact ⟨p.2, by simpa using this.1, by simpa using this.2⟩
  · intro e
    rw [hw]
    simp only [List.mem_filter]
    constructor
    · rintro ⟨hm, hc⟩
      simp at hc
      exact ⟨hm, hc.1.1, hc.1.2, hc.2⟩
    · rintro ⟨hm, h1, h2, h3⟩
      refine ⟨hm, ?_⟩
      simp [h1, h2, h3]
  · intro q
    rw [hw]
    simp only [List.mem_filter]
    constructor
    · rintro ⟨hm, hc⟩
      exact ⟨hm, by simpa using hc⟩
    · rintro ⟨hm, hc⟩
      exact ⟨hm, by simpa using hc⟩
  · intro q
    rw [hw]
    simp only [List.mem_filter]
    constructor
    · rintro ⟨hm, hc⟩
      exact ⟨hm, by simpa using hc⟩
    · rintro ⟨hm, hc⟩
      exact ⟨hm, by simpa using hc⟩

theorem c8_idle_timeout_witness :
    1 ∈ (idle_timeout_system 6 DEFAULT_IDLE_TIMEOUT_SECS [(1, 0), (2, 4)]).2 ∧
    (2, 4) ∈ (idle_timeout_system 6 DEFAULT_IDLE_TIMEOUT_SECS [(1, 0), (2, 4)]).1 ∧
    (20 ∈ (handle_client_disconnected 1
        ⟨[10, 11, 12, 20], [(10, ⟨1, 11, 12, 0, 0⟩)], [(1, 10)]⟩).alive ∧
     11 ∉ (handle_client_disconnected 1
        ⟨[10, 11, 12, 20], [(10, ⟨1, 11, 12, 0, 0⟩)], [(1, 10)]⟩).alive) := by
  have h := c8_idle_timeout 6 DEFAULT_IDLE_TIMEOUT_SECS [(1, 0), (2, 4)] 1 10
    ⟨1, 11, 12, 0, 0⟩ ⟨[10, 11, 12, 20], [(10, ⟨1, 11, 12, 0, 0⟩)], [(1, 10)]⟩
    (by simp) (by simp)
  refine ⟨?_, ?_, ?_, ?_⟩
  · refine h.2.1 1 0 (by simp) ?_
    rw [DEFAULT_IDLE_TIMEOUT_SECS]
    norm_num
  · refine (h.1 (2, 4)).mpr ⟨by simp, ?_⟩
    rw [DEFAULT_IDLE_TIMEOUT_SECS]
    norm_num
  · exact (h.2.2.2.1 20).mpr ⟨by simp, by simp, by simp, by simp⟩
  · intro habs
    have := (h.2.2.2.1 11).mp habs
    simp at this

theorem ballVsColliders_score_mono (pos v : Vec2) (cols : List SCollider)
    (s : ℕ) (d : List ℕ) : s ≤ (ballVsColliders pos v cols s d).2.1 := by
  suffices h : ∀ (cols : List SCollider) (acc : Vec2 × ℕ × List ℕ),
      acc.2.1 ≤ (cols.foldl
        (fun (acc : Vec2 × ℕ × List ℕ) c =>
          match ball_collision ⟨pos, BALL_DIAMETER / 2⟩ (colliderAabb c) with
          | none => acc
          | some side =>
            let score' := if c.isBrick then acc.2.1 + 1 else acc.2.1
            let desp' := if c.isBrick then acc.2.2 ++ [c.id] else acc.2.2
            (reflectBallVelocity side acc.1, score', desp')) acc).2.1 by
    exact h cols (v, s, d)
  intro cols
  induction cols with
  | nil => intro acc; exact le_refl _
  | cons c rest ih =>
    intro acc
    refine le_trans ?_ (ih _)
    cases hcol : ball_collision ⟨pos, BALL_DIAMETER / 2⟩ (colliderAabb c) with
    | none => simp [hcol]
    | some side =>
      simp only [hcol]
      by_cases hb : c.isBrick <;> simp [hb]

theorem checkLoop_score_mono (balls : List SBall) (cols : List SCollider)
    (s : ℕ) (d : List ℕ) : s ≤ (checkLoop balls cols s d).2.1 := by
  induction balls generalizing s d with
  | nil => exact le_refl _
  | cons b rest ih =>
    exact le_trans (ballVsColliders_score_mono b.pos b.vel cols s d) (ih _ _)

theorem serverTick_score_mono (now : ℚ) (w : ServerWorld) :
    w.score ≤ (serverTick now w).score :=
  checkLoop_score_mono _ _ _ _

theorem syncScoreFold_step_other (known : List ℕ) (e : CNetEntity) (s : ℕ)
    (hsc : scoreValue? e.entity_type = none) :
    (if known.contains e.net_id = true then ((known, s) : List ℕ × ℕ)
     else
       match e.entity_type with
       | .score v => (known, v)
       | _ => (known ++ [e.net_id], s))
      = (if known.contains e.net_id = true then (known, s)
         else (known ++ [e.net_id], s)) := by
  by_cases hc : known.contains e.net_id = true
  · have hm : e.net_id ∈ known := by simpa using hc
    simp [hm]
  · have hm : e.net_id ∉ known := by simpa using hc
    cases he : e.entity_type with
    | score u =>
      rw [he] at hsc
      exact absurd hsc (by simp [scoreValue?])
    | paddle p pi => simp [hm, he]
    | brick p => simp [hm, he]
    | ball p ve pi => simp [hm, he]

theorem syncScoreFold_pres (v : ℕ) :
    ∀ (entities : List CNetEntity) (known : List ℕ),
      (∀ e ∈ entities, ∀ u, scoreValue? e.entity_type = some u →
          u = v ∧ e.net_id = 0) →
      (∀ e ∈ entities, scoreValue? e.entity_type = none → e.net_id ≠ 0) →
      0 ∉ known →
      (syncScoreFold known entities v).2 = v := by
  intro entities
  induction entities with
  | nil => intro known _ _ _; rfl
  | cons e rest ih =>
    intro known hsc hnz h0
    have htail := fun (k : List ℕ) (hk : 0 ∉ k) =>
      ih k (fun x hx => hsc x (by simp [hx])) (fun x hx => hnz x (by simp [hx])) hk
    cases hv : scoreValue? e.entity_type with
    | some u =>
      obtain ⟨hueq, hid⟩ := hsc e (by simp) u hv
      subst hueq
      have he : e.entity_type = .score u := by
        cases he2 : e.entity_type with
        | score w =>
          rw [he2] at hv
          simp [scoreValue?] at hv
          rw [hv]
        | paddle p pi =>
          rw [he2] at hv
          simp [scoreValue?] at hv
        | brick p =>
          rw [he2] at hv
          simp [scoreValue?] at hv
        | ball p ve pi =>
          rw [he2] at hv
          simp [scoreValue?] at hv
      have hnc : known.contains e.net_id = false := by
        rw [hid]
        simpa using h0
      simp only [syncScoreFold, List.foldl_cons, hnc, Bool.false_eq_true, if_false, he]
      exact htail known h0
    | none =>
      have hne0 : e.net_id ≠ 0 := hnz e (by simp) hv
      by_cases hc : known.contains e.net_id = true
      · simp only [syncScoreFold, List.foldl_cons, hc, if_true]
        exact htail known h0
      · have hcf : known.contains e.net_id = false := by simpa using hc
        have hstep := syncScoreFold_step_other known e v hv
        rw [hcf] at hstep
        simp only [Bool.false_eq_true, if_false] at hstep
        simp only [syncScoreFold, List.foldl_cons, hcf, Bool.false_eq_true, if_false,
          hstep]
        refine htail (known ++ [e.net_id]) ?_
        simp only [List.mem_append, List.mem_singleton]
        rintro (h | h)
        · exact h0 h
        · exact hne0 h.symm

theorem syncScoreFold_reaches (v : ℕ) :
    ∀ (entities : List CNetEntity) (known : List ℕ) (s : ℕ),
      (∀ e ∈ entities, ∀ u, scoreValue? e.entity_type = some u →
          u = v ∧ e.net_id = 0) →
      (∀ e ∈ entities, scoreValue? e.entity_type = none → e.net_id ≠ 0) →
      0 ∉ known →
      (∃ e ∈ entities, scoreValue? e.entity_type = some v) →
      (syncScoreFold known entities s).2 = v := by
  intro entities
  induction entities with
  | nil =>
    intro known s _ _ _ hex
    obtain ⟨e, he, _⟩ := hex
    simp at he
  | cons e rest ih =>
    intro known s hsc hnz h0 hex
    cases hv : scoreValue? e.entity_type with
    | some u =>
      obtain ⟨hueq, hid⟩ := hsc e (by simp) u hv
      subst hueq
      have he : e.entity_type = .score u := by
        cases he2 : e.entity_type with
        | score w =>
          rw [he2] at hv
          simp [scoreValue?] at hv
          rw [hv]
        | paddle p pi =>
          rw [he2] at hv
          simp [scoreValue?] at hv
        | brick p =>
          rw [he2] at hv
          simp [scoreValue?] at hv
        | ball p ve pi =>
          rw [he2] at hv
          simp [scoreValue?] at hv
      have hnc : known.contains e.net_id = false := by
        rw [hid]
        simpa using h0
      simp only [syncScoreFold, List.foldl_cons, hnc, Bool.false_eq_true, if_false, he]
      exact syncScoreFold_pres u rest known
        (fun x hx => hsc x (by simp [hx]))
        (fun x hx => hnz x (by simp [hx])) h0
    | none =>
      have hne0 : e.net_id ≠ 0 := hnz e (by simp) hv
      have hexr : ∃ x ∈ rest, scoreValue? x.entity_type = some v := by
        obtain ⟨x, hx, hxv⟩ := hex
        rcases List.mem_cons.mp hx with rfl | hx2
        · rw [hv] at hxv
          exact absurd hxv (by simp)
        · exact ⟨x, hx2, hxv⟩
      have htail := fun (k : List ℕ) (hk : 0 ∉ k) =>
        ih k s (fun x hx => hsc x (by simp [hx]))
          (fun x hx => hnz x (by simp [hx])) hk hexr
      by_cases hc : known.contains e.net_id = true
      · simp only [syncScoreFold, List.foldl_cons, hc, if_true]
        exact htail known h0
      · have hcf : known.contains e.net_id = false := by simpa using hc
        have hstep := syncScoreFold_step_other known e s hv
        rw [hcf] at hstep
        simp only [Bool.false_eq_true, if_false] at hstep
        simp only [syncScoreFold, List.foldl_cons, hcf, Bool.false_eq_true, if_false,
          hstep]
        refine htail (known ++ [e.net_id]) ?_
        simp only [List.mem_append, List.mem_singleton]
        rintro (h | h)
        · exact h0 h
        · exact hne0 h.symm

/-- C9 amended: the server's score is monotonically non-decreasing across any
sequence of server ticks, the only mutation being an increment by 1 per
ball-brick collision (a brick struck by two balls on the same tick is
destroyed once but increments the score twice); the client sets its displayed
score verbatim to the score field of each applied snapshot. -/

theorem c9_score_amended :
    (∀ (w : ServerWorld) (nows : List ℚ),
        w.score ≤ (nows.foldl (fun ww n => serverTick n ww) w).score) ∧
    (∀ (known : List ℕ) (entities : List CNetEntity) (s v : ℕ),
        (∀ e ∈ entities, ∀ u, scoreValue? e.entity_type = some u →
            u = v ∧ e.net_id = 0) →
        (∀ e ∈ entities, scoreValue? e.entity_type = none → e.net_id ≠ 0) →
        0 ∉ known →
        (∃ e ∈ entities, scoreValue? e.entity_type = some v) →
        syncScore known entities s = v) := by
  constructor
  · intro w nows
    induction nows generalizing w with
    | nil => exact le_refl _
    | cons n rest ih =>
      exact le_trans (serverTick_score_mono n w) (ih (serverTick n w))
  · intro known entities s v hsc hnz h0 hex
    exact syncScoreFold_reaches v entities known s hsc hnz h0 hex

theorem c9_score_amended_witness :
    ([(0 : ℚ)].foldl (fun ww n => serverTick n ww)
        (ServerWorld.mk [] [] [] [] 3)).score ≥ 3 ∧
    syncScore [5] [⟨.paddle ⟨0, 0⟩ 0, 5⟩, ⟨.score 7, 0⟩] 3 = 7 := by
  constructor
  · exact (c9_score_amended.1 (ServerWorld.mk [] [] [] [] 3) [0])
  · refine c9_score_amended.2 [5] [⟨.paddle ⟨0, 0⟩ 0, 5⟩, ⟨.score 7, 0⟩] 3 7 ?_ ?_ ?_ ?_
    · intro e he u hu
      rcases List.mem_cons.mp he with rfl | he2
      · simp [scoreValue?] at hu
      · rcases List.mem_cons.mp he2 with rfl | he3
        · simp [scoreValue?] at hu
          exact ⟨hu.symm, rfl⟩
        · simp at he3
    · intro e he hu
      rcases List.mem_cons.mp he with rfl | he2
      · simp
      · rcases List.mem_cons.mp he2 with rfl | he3
        · simp [scoreValue?] at hu
        · simp at he3
    · simp
    · exact ⟨⟨.score 7, 0⟩, by simp, rfl⟩

/-- C9 counterexample: on this tick the score increases by 2 while exactly
one brick is destroyed, so the score mutation is not "an increment by 1 per
destroyed brick". -/

theorem c9_score_counterexample :
    (serverTick 0 c9World).score = 2 ∧
    c9World.bricks.length - (serverTick 0 c9World).bricks.length = 1 ∧
    (serverTick 0 c9World).score
      ≠ c9World.score + (c9World.bricks.length - (serverTick 0 c9World).bricks.length) := by
  have hcol1 : ball_collision ⟨⟨0, 20⟩, BALL_DIAMETER / 2⟩
      (colliderAabb ⟨⟨0, 0⟩, ⟨100, 30⟩, true, 42⟩) = some .top := by
    norm_num [ball_collision, BoundingCircle.intersectsAabb, Aabb2d.new,
      Aabb2d.closest_point, colliderAabb, distSq, rclamp, min_def, max_def,
      BALL_DIAMETER]
  have hcol2 : ball_collision ⟨⟨0, -20⟩, BALL_DIAMETER / 2⟩
      (colliderAabb ⟨⟨0, 0⟩, ⟨100, 30⟩, true, 42⟩) = some .bottom := by
    norm_num [ball_collision, BoundingCircle.intersectsAabb, Aabb2d.new,
      Aabb2d.closest_point, colliderAabb, distSq, rclamp, min_def, max_def,
      BALL_DIAMETER]
  have htick : serverTick 0 c9World =
      ⟨[],
       [⟨⟨0, 20⟩, ⟨0, 0⟩⟩, ⟨⟨0, -20⟩, ⟨0, 0⟩⟩],
       [],
       [],
       2⟩ := by
    have hb1 : (0 : ℚ) + 0 * TICK_S = 0 := by norm_num
    have hb2 : (20 : ℚ) + 0 * TICK_S = 20 := by norm_num
    have hb3 : (-20 : ℚ) + 0 * TICK_S = -20 := by norm_num
    simp only [serverTick, c9World, List.map_nil, List.map_cons, List.nil_append,
      List.append_nil, checkLoop, ballVsColliders, List.foldl_cons, List.foldl_nil,
      hb1, hb2, hb3, hcol1, hcol2]
    simp [reflectBallVelocity, reflectFlags]
  rw [htick]
  simp [c9World]

/-- C3: with `ack` the most recent received snapshot's `last_applied_input`,
the reconciliation pass discards from the unacked FIFO exactly the inputs
with `sequence ≤ ack`, keeping those with `sequence > ack` in order; and when
nothing remains after the discard, the pass returns immediately leaving every
predicted entity's transform and velocity (and the score) unchanged. -/

theorem c3_reconciliation (states : List ClientWorldState)
    (unacked : List PlayerInputData) (paddles : List PredPaddle)
    (balls : List PredBall) (remaining : List RemainingCollider) (score : ℕ)
    (last : ClientWorldState) (hlast : states.getLast? = some last) :
    (reconcile_and_update_predictions states unacked paddles balls remaining score).1
        = unacked.filter (fun i => decide (last.last_applied_input < i.sequence)) ∧
    (∀ i ∈ (reconcile_and_update_predictions states unacked paddles balls
        remaining score).1, last.last_applied_input < i.sequence) ∧
    (∀ i ∈ unacked, i.sequence ≤ last.last_applied_input →
      i ∉ (reconcile_and_update_predictions states unacked paddles balls
        remaining score).1) ∧
    (unacked.filter (fun i => decide (last.last_applied_input < i.sequence)) = [] →
      (reconcile_and_update_predictions states unacked paddles balls remaining
        score).2.1 = paddles ∧
      (reconcile_and_update_predictions states unacked paddles balls remaining
        score).2.2.1 = balls ∧
      (reconcile_and_update_predictions states unacked paddles balls remaining
        score).2.2.2 = score) := by
  have hkept : ∀ (r : List PlayerInputData × List PredPaddle × List PredBall × ℕ),
      r = reconcile_and_update_predictions states unacked paddles balls remaining
        score → r.1 = unacked.filter
          (fun i => decide (last.last_applied_input < i.sequence)) := by
    intro r hr
    rw [hr]
    simp only [reconcile_and_update_predictions, hlast]
    by_cases he : (unacked.filter
        (fun i => decide (last.last_applied_input < i.sequence))).isEmpty
    · simp [he]
    · simp [he]
  have h1 := hkept _ rfl
  refine ⟨h1, ?_, ?_, ?_⟩
  · intro i hi
    rw [h1] at hi
    simpa using List.of_mem_filter hi
  · intro i _ hle habs
    rw [h1] at habs
    have := List.of_mem_filter habs
    simp at this
    omega
  · intro hempty
    have hiempty : (unacked.filter
        (fun i => decide (last.last_applied_input < i.sequence))).isEmpty := by
      rw [hempty]
      rfl
    refine ⟨?_, ?_, ?_⟩ <;>
      simp [reconcile_and_update_predictions, hlast, hiempty]

theorem c3_reconciliation_witness :
    (reconcile_and_update_predictions [⟨[], 101, 0⟩]
        [⟨100, 0, 0⟩, ⟨101, 0, 0⟩, ⟨102, 0, 0⟩] [] [] [] 0).1
      = [⟨102, 0, 0⟩] ∧
    (reconcile_and_update_predictions [⟨[], 200, 0⟩] [⟨100, 0, 0⟩]
        [⟨1, 2, ⟨3, 4, 0⟩⟩] [⟨3, ⟨0, 0, 1⟩, ⟨1, 1⟩⟩] [] 5).2.1
      = [⟨1, 2, ⟨3, 4, 0⟩⟩] ∧
    (reconcile_and_update_predictions [⟨[], 200, 0⟩] [⟨100, 0, 0⟩]
        [⟨1, 2, ⟨3, 4, 0⟩⟩] [⟨3, ⟨0, 0, 1⟩, ⟨1, 1⟩⟩] [] 5).2.2.1
      = [⟨3, ⟨0, 0, 1⟩, ⟨1, 1⟩⟩] := by
  have ha := c3_reconciliation [⟨[], 101, 0⟩]
    [⟨100, 0, 0⟩, ⟨101, 0, 0⟩, ⟨102, 0, 0⟩] [] [] [] 0 ⟨[], 101, 0⟩ rfl
  have hb := c3_reconciliation [⟨[], 200, 0⟩] [⟨100, 0, 0⟩]
    [⟨1, 2, ⟨3, 4, 0⟩⟩] [⟨3, ⟨0, 0, 1⟩, ⟨1, 1⟩⟩] [] 5 ⟨[], 200, 0⟩ rfl
  have hfa : ([⟨100, 0, 0⟩, ⟨101, 0, 0⟩, ⟨102, 0, 0⟩] : List PlayerInputData).filter
      (fun i => decide ((⟨[], 101, 0⟩ : ClientWorldState).last_applied_input
        < i.sequence)) = [⟨102, 0, 0⟩] := by
    simp [List.filter]
  have hfb : ([⟨100, 0, 0⟩] : List PlayerInputData).filter
      (fun i => decide ((⟨[], 200, 0⟩ : ClientWorldState).last_applied_input
        < i.sequence)) = [] := by
    simp [List.filter]
  refine ⟨?_, (hb.2.2.2 hfb).1, (hb.2.2.2 hfb).2.1⟩
  rw [ha.1, hfa]

/-- Layout check: `write_header` writes the layout the spec documents: bytes 0..4 the
big-endian magic, 4..8 the connection's `last_applied_input`, byte 8 the
player index; the remainder of the buffer is untouched. -/

theorem write_header_layout (conn : NetConnection) (buf : List ℕ) :
    write_header conn buf
      = writeU32BE WORLD_PACKET_HEADER_TAG ++ writeU32BE conn.last_applied_input ++
        [conn.player_index] ++ buf.drop 9 := rfl

/-- C1: the world-state broadcast in src/server.rs sends the bincode packet
bytes with **no** 9-byte header: at the concrete tick below (frame 1, empty
world, score 0, one connection) the datagram is `[0, 1, 1, 3, 0, 0]`, whose
first four bytes differ from the big-endian magic `0xBA11BA11` that
`write_header` would produce — and the client in the same repository
discards exactly such datagrams. -/

theorem c1_broadcast_missing_header :
    broadcast_world_state 1 [] 0 [⟨5, []⟩] = [⟨5, [0, 1, 1, 3, 0, 0]⟩] ∧
    writeU32BE WORLD_PACKET_HEADER_TAG = [0xBA, 0x11, 0xBA, 0x11] ∧
    (broadcast_world_state 1 [] 0 [⟨5, []⟩]).head?.map
        (fun m => m.payload.take 4) = some [0, 1, 1, 3] ∧
    [0, 1, 1, 3] ≠ [0xBA, 0x11, 0xBA, 0x11] ∧
    clientAcceptsDatagram [0, 1, 1, 3, 0, 0] = false := by
  refine ⟨?_, ?_, ?_, ?_, ?_⟩
  · rfl
  · rfl
  · rfl
  · decide
  · decide

end Fixedtick


